import Mathlib

/-!
Verification of the column-to-property matching core of the
SemanticModelDataMapper repository.

Strings from the Python source are embedded as `List Char`; the Python
string operations used by the matcher (`str.lower`, `str.replace`,
substring membership `in`, `str.endswith`, `str.split`) are translated
into executable functions on `List Char` below.

Source files embedded:
- `src/rdfmap/generator/mapping_generator.py` (MappingGenerator,
  GeneratorConfig, the matching cascade, alignment report builder)
- `src/rdfmap/generator/matchers/semantic_matcher.py`
  (SemanticSimilarityMatcher lexical fallback)
- `src/rdfmap/generator/matchers/factory.py` (pipeline construction order)
-/

namespace RDFMap

/-! ### Character-list string operations (Python string primitives) -/

/-- Python `s.lower()` on the embedded string. -/
def lowerStr (s : List Char) : List Char := s.map Char.toLower

/-- Python `s.replace(c, "")` for a set of single characters: removal. -/
def removeChars (cs : List Char) (s : List Char) : List Char :=
  s.filter (fun c => ¬ cs.contains c)

/-- Python `s.replace(c, d)` for single characters: substitution. -/
def substChar (c d : Char) (s : List Char) : List Char :=
  s.map (fun x => if x = c then d else x)

/-- Does `needle` occur at the head of `hay`?  (Python startswith). -/
def leadsList : List Char → List Char → Bool
  | [], _ => true
  | _ :: _, [] => false
  | a :: as, b :: bs => a = b && leadsList as bs

/-- Python substring membership `needle in hay`. -/
def occursIn (needle : List Char) : List Char → Bool
  | [] => needle.isEmpty
  | c :: t => leadsList needle (c :: t) || occursIn needle t

/-- Python `hay.endswith(suf)`. -/
def endsList (suf hay : List Char) : Bool :=
  leadsList suf.reverse hay.reverse

/-- The segment after the last occurrence of `sep` (Python
`s.split(sep)[-1]`; the whole string when `sep` is absent). -/
def lastSeg (sep : Char) (s : List Char) : List Char :=
  (s.reverse.takeWhile (fun c => ¬ c = sep)).reverse

/-- Python `str(prop.uri).split("#")[-1].split("/")[-1]`: the URI local name. -/
def localNameOf (uri : List Char) : List Char :=
  lastSeg '/' (lastSeg '#' uri)

/-- Fuel-driven replacement of every occurrence of `needle` by `repl`
(Python `hay.replace(needle, repl)` for a non-empty `needle`). -/
def replaceFuel (needle repl : List Char) : Nat → List Char → List Char
  | 0, hay => hay
  | _ + 1, [] => []
  | fuel + 1, c :: t =>
      if leadsList needle (c :: t) then
        repl ++ replaceFuel needle repl fuel ((c :: t).drop needle.length)
      else
        c :: replaceFuel needle repl fuel t

/-- Python `hay.replace(needle, repl)` (non-empty `needle`). -/
def replaceSub (needle repl hay : List Char) : List Char :=
  replaceFuel needle repl hay.length hay

/-- Split on single spaces, dropping empty pieces: Python `s.split()`
for strings whose only whitespace is `' '` (the matcher normalizes
`'_'` and `'-'` to `' '` before splitting). -/
def splitSp : List Char → List (List Char)
  | [] => [[]]
  | c :: t =>
      match splitSp t with
      | [] => [[]]
      | w :: ws => if c = ' ' then [] :: w :: ws else (c :: w) :: ws

/-- Python `s.split()`: the non-empty words of `s`. -/
def wordsOf (s : List Char) : List (List Char) :=
  (splitSp s).filter (fun w => ¬ w = [])

/-! ### Data model -/

/-- `MatchType` from `src/rdfmap/models/alignment.py` (the enum values
used by the embedded code; `partialMatch`/`fuzzyMatch` stand for the
Python `PARTIAL`/`FUZZY` members). -/
inductive MatchType where
  | exactPrefLabel
  | exactLabel
  | exactAltLabel
  | exactHiddenLabel
  | exactLocalName
  | partialMatch
  | fuzzyMatch
  | semanticSimilarity
  deriving DecidableEq

/-- An ontology property as consumed from the (out-of-scope) ontology
analyzer: URI, optional rdfs label, optional SKOS prefLabel, SKOS
alt/hidden labels, optional comment.  `all_labels` is the output of the
analyzer's `get_all_labels()` method (its code is outside the matching
core); it is carried as data. -/
structure OntologyProperty where
  uri : List Char
  label : Option (List Char) := none
  pref_label : Option (List Char) := none
  alt_labels : List (List Char) := []
  hidden_labels : List (List Char) := []
  comment : Option (List Char) := none
  all_labels : List (List Char) := []
  range_type : Option (List Char) := none
  deriving DecidableEq

/-- An ontology class as consumed from the ontology analyzer. -/
structure OntologyClass where
  uri : List Char
  label : Option (List Char) := none
  deriving DecidableEq

/-- `ColumnAnalysis` as consumed from the spreadsheet analyzer. -/
structure ColumnAnalysis where
  sample_values : List (List Char) := []
  suggested_datatype : Option (List Char) := none
  is_required : Bool := false
  deriving DecidableEq

/-- `GeneratorConfig` (mapping_generator.py lines 24–35).
`default_class_pfx` embeds the Python field `default_class_prefix`. -/
structure GeneratorConfig where
  base_iri : List Char
  default_class_pfx : List Char := []
  include_comments : Bool := true
  auto_detect_relationships : Bool := true
  min_confidence : ℚ := 0.5
  deriving DecidableEq

/-! ### The matching cascade (`_match_column_to_property`) -/

/-- Normalization applied to the column name and to every label:
`s.lower().replace("_", "").replace(" ", "")`. -/
def cleanLabel (s : List Char) : List Char :=
  removeChars ['_', ' '] (lowerStr s)

/-- Normalization applied to URI local names:
`local_name.lower().replace("_", "")` (spaces are kept). -/
def cleanLocal (s : List Char) : List Char :=
  removeChars ['_'] (lowerStr s)

/-- First `some` produced by `f` along the list (Python `for` loop with
`return` inside). -/
def findSomeL (f : α → Option β) : List α → Option β
  | [] => none
  | a :: t =>
      match f a with
      | some b => some b
      | none => findSomeL f t

/-- A candidate produced by one cascade stage: property, match type, and
the `matched_via` string. -/
abbrev Cand := OntologyProperty × MatchType × List Char

/-- Cascade priority 1: exact match with SKOS prefLabel. -/
def stagePref (colLower : List Char) (props : List OntologyProperty) : Option Cand :=
  findSomeL (fun p =>
    p.pref_label.bind (fun pl =>
      if cleanLabel pl = colLower then some (p, MatchType.exactPrefLabel, pl) else none)) props

/-- Cascade priority 2: exact match with rdfs:label. -/
def stageRdfs (colLower : List Char) (props : List OntologyProperty) : Option Cand :=
  findSomeL (fun p =>
    p.label.bind (fun l =>
      if cleanLabel l = colLower then some (p, MatchType.exactLabel, l) else none)) props

/-- Cascade priority 3: exact match with a SKOS altLabel. -/
def stageAlt (colLower : List Char) (props : List OntologyProperty) : Option Cand :=
  findSomeL (fun p =>
    findSomeL (fun al =>
      if cleanLabel al = colLower then some (p, MatchType.exactAltLabel, al) else none)
      p.alt_labels) props

/-- Cascade priority 4: exact match with a SKOS hiddenLabel. -/
def stageHidden (colLower : List Char) (props : List OntologyProperty) : Option Cand :=
  findSomeL (fun p =>
    findSomeL (fun hl =>
      if cleanLabel hl = colLower then some (p, MatchType.exactHiddenLabel, hl) else none)
      p.hidden_labels) props

/-- Cascade priority 5: exact match with the URI local name. -/
def stageLocal (colLower : List Char) (props : List OntologyProperty) : Option Cand :=
  findSomeL (fun p =>
    let ln := localNameOf p.uri
    if cleanLocal ln = colLower then some (p, MatchType.exactLocalName, ln) else none) props

/-- The label list scanned by cascade priority 6: prefLabel, rdfs label,
then altLabels (hidden labels are not scanned here). -/
def partialLabels (p : OntologyProperty) : List (List Char) :=
  p.pref_label.toList ++ p.label.toList ++ p.alt_labels

/-- Cascade priority 6: partial (containment either way) match with any
of prefLabel / rdfs label / altLabels. -/
def stagePartial (colLower : List Char) (props : List OntologyProperty) : Option Cand :=
  findSomeL (fun p =>
    findSomeL (fun l =>
      let lc := cleanLabel l
      if occursIn colLower lc || occursIn lc colLower then
        some (p, MatchType.partialMatch, l)
      else none) (partialLabels p)) props

/-- Cascade priority 7: fuzzy (containment either way) match with the
URI local name. -/
def stageFuzzy (colLower : List Char) (props : List OntologyProperty) : Option Cand :=
  findSomeL (fun p =>
    let ln := localNameOf p.uri
    let lc := cleanLocal ln
    if occursIn colLower lc || occursIn lc colLower then
      some (p, MatchType.fuzzyMatch, ln)
    else none) props

/-- The seven cascade stages of `_match_column_to_property`, in source
order, each applied to the normalized column name. -/
def stages (col_name : List Char) (props : List OntologyProperty) : List (Option Cand) :=
  let colLower := cleanLabel col_name
  [stagePref colLower props,
   stageRdfs colLower props,
   stageAlt colLower props,
   stageHidden colLower props,
   stageLocal colLower props,
   stagePartial colLower props,
   stageFuzzy colLower props]

/-- First `some` element of a list of options (the cascade's early
`return`). -/
def firstSomeL : List (Option α) → Option α
  | [] => none
  | some r :: _ => some r
  | none :: t => firstSomeL t

/-- `MappingGenerator._match_column_to_property` (mapping_generator.py
lines 263–342): the seven strategies are tried in order and the first
one to produce a result wins. -/
def matchColumnToProperty (col_name : List Char) (props : List OntologyProperty) : Option Cand :=
  firstSomeL (stages col_name props)

/-! ### Confidence model -/

/-- Modelled from the spec: `calculate_confidence_score` lives in
`src/rdfmap/models/alignment.py`, which is not among the provided
sources.  The spec fixes the per-match-type constants: pref-label 1.0 >
rdfs-label 0.95 > alt-label 0.90 > hidden-label 0.85 > local-name 0.80,
and the fallback matchers partial 0.60 and fuzzy 0.40 (their pipeline
thresholds).  The generator cascade never produces
`semanticSimilarity`; its row here is unused by every theorem. -/
def calculate_confidence_score : MatchType → ℚ
  | .exactPrefLabel => 1
  | .exactLabel => 0.95
  | .exactAltLabel => 0.9
  | .exactHiddenLabel => 0.85
  | .exactLocalName => 0.8
  | .partialMatch => 0.6
  | .fuzzyMatch => 0.4
  | .semanticSimilarity => 0

/-- Modelled from the spec: the `ConfidenceCalibrator`
(`src/rdfmap/generator/confidence_calibrator.py`) is not among the
provided sources; the spec requires a monotonic per-match-type map on
[0,1] and allows the identity, which is what we take. -/
def calibrate (_mt : MatchType) (raw : ℚ) : ℚ := raw

/-- Calibrated confidence of a cascade candidate. -/
def confOf (c : Cand) : ℚ :=
  calibrate c.2.1 (calculate_confidence_score c.2.1)

/-- All candidates produced by the cascade stages, in pipeline order. -/
def candidateResults (col_name : List Char) (props : List OntologyProperty) : List Cand :=
  (stages col_name props).filterMap id

/-- Selection by maximal calibrated confidence with earliest-position
tie-break (strict improvement is required to displace the incumbent). -/
def selectBest : List Cand → Option Cand
  | [] => none
  | c :: t => some (t.foldl (fun acc d => if confOf acc < confOf d then d else acc) c)

/-! ### Column mapping generation (`_generate_column_mappings`) -/

/-- One generated column mapping entry (the per-column dict written by
`_generate_column_mappings`): `as`, optional `datatype`, `required`
flag, optional `_comment`.  Note: the Python code adds the `datatype`
key only when `suggested_datatype` is truthy and the `required` key
only when `is_required`; an `Option`/`Bool` field models presence. -/
structure ColumnMapping where
  as_uri : List Char
  datatype : Option (List Char)
  required : Bool
  comment : Option (List Char)
  deriving DecidableEq

/-- The spreadsheet analyzer as consumed by the generator (read-only
collaborator, interface per the spec): file path, file stem, ordered
column names, per-column analysis, and IRI-template column suggestions. -/
structure SpreadsheetIndex where
  file_path : List Char
  file_stem : List Char
  column_names : List (List Char)
  get_analysis : List Char → ColumnAnalysis
  suggest_iri_template_columns : List (List Char)

/-- The ontology analyzer as consumed by the generator (read-only
collaborator, interface per the spec).  `classes` is the analyzer's
insertion-ordered `uri → class` dict. -/
structure OntologyIndex where
  classes : List (List Char × OntologyClass)
  namespaces : List (List Char × List Char)
  get_class_by_label : List Char → Option OntologyClass
  suggest_class_for_name : List Char → List OntologyClass
  get_datatype_properties : List Char → List OntologyProperty
  get_object_properties : List Char → List OntologyProperty

/-- `MappingGenerator._format_uri`: produce a CURIE using the first
namespace that is a leading segment of the URI, else the full URI. -/
def formatUri (namespaces : List (List Char × List Char)) (uri : List Char) : List Char :=
  match findSomeL (fun kv =>
      if leadsList kv.2 uri then some (kv.1 ++ ':' :: uri.drop kv.2.length) else none)
    namespaces with
  | some curie => curie
  | none => uri

/-- Insert-or-replace on an association list, keeping the original
position of an existing key (Python `dict[k] = v`). -/
def upsert (k : List Char) (v : α) : List (List Char × α) → List (List Char × α)
  | [] => [(k, v)]
  | (k2, v2) :: t => if k2 = k then (k2, v) :: t else (k2, v2) :: upsert k v t

/-- Lookup in an association list (Python `dict.get`). -/
def assocGet (k : List Char) : List (List Char × α) → Option α
  | [] => none
  | (k2, v2) :: t => if k2 = k then some v2 else assocGet k t

/-- The `MappingGenerator`'s per-instance tracking state:
`_mapped_columns` (a dict, column name → (property, match type,
confidence)) and `_unmapped_columns` (a list, appended to). -/
structure GenState where
  mapped : List (List Char × (OntologyProperty × MatchType × ℚ))
  unmapped : List (List Char)
  deriving DecidableEq

/-- The fresh state built by `MappingGenerator.__init__`. -/
def initState : GenState := ⟨[], []⟩

/-- Loop body data of `_generate_column_mappings` for one matched
column: the mapping dict written for it. -/
def columnEntry (cfg : GeneratorConfig) (namespaces : List (List Char × List Char))
    (ca : ColumnAnalysis) (p : OntologyProperty) : ColumnMapping :=
  { as_uri := formatUri namespaces p.uri
    datatype := ca.suggested_datatype
    required := ca.is_required
    comment := if cfg.include_comments then p.comment else none }

/-- `MappingGenerator._generate_column_mappings` (mapping_generator.py
lines 219–261), with the instance state threaded explicitly: for each
column, run the cascade; on a match, record it in `_mapped_columns`
(with `calculate_confidence_score` of the match type) and emit a
mapping entry; otherwise append the column to `_unmapped_columns`.
No confidence threshold is consulted anywhere in this function. -/
def generateColumnMappings (cfg : GeneratorConfig)
    (namespaces : List (List Char × List Char))
    (props : List OntologyProperty) (sp : SpreadsheetIndex) :
    List (List Char) → GenState → List (List Char × ColumnMapping) × GenState
  | [], st => ([], st)
  | col :: rest, st =>
      let ca := sp.get_analysis col
      match matchColumnToProperty col props with
      | some (p, mt, _via) =>
          let conf := calculate_confidence_score mt
          let st1 : GenState := { st with mapped := upsert col (p, mt, conf) st.mapped }
          let res := generateColumnMappings cfg namespaces props sp rest st1
          ((col, columnEntry cfg namespaces ca p) :: res.1, res.2)
      | none =>
          let st1 : GenState := { st with unmapped := st.unmapped ++ [col] }
          generateColumnMappings cfg namespaces props sp rest st1

/-- The effect of `_generate_column_mappings` on the `_mapped_columns`
dict alone, as a fold (used to reason about repeated runs). -/
def mappedFold (props : List OntologyProperty) (cols : List (List Char))
    (m0 : List (List Char × (OntologyProperty × MatchType × ℚ))) :
    List (List Char × (OntologyProperty × MatchType × ℚ)) :=
  cols.foldl (fun m col =>
    match matchColumnToProperty col props with
    | some r => upsert col (r.1, r.2.1, calculate_confidence_score r.2.1) m
    | none => m) m0

/-! ### Alignment report (`_build_alignment_report`, `_generate_skos_suggestion`) -/

/-- Confidence levels of the alignment report. -/
inductive ConfidenceLevel where
  | high
  | medium
  | low
  | veryLow
  deriving DecidableEq

/-- Modelled from the spec: `get_confidence_level` lives in
`src/rdfmap/models/alignment.py`, which is not among the provided
sources; the spec fixes the bucket thresholds 0.8 / 0.5 / 0.3. -/
def get_confidence_level (c : ℚ) : ConfidenceLevel :=
  if 0.8 ≤ c then .high
  else if 0.5 ≤ c then .medium
  else if 0.3 ≤ c then .low
  else .veryLow

/-- An `UnmappedColumn` record of the alignment report. -/
structure UnmappedColumn where
  column_name : List Char
  sample_values : List (List Char)
  inferred_datatype : Option (List Char)
  reason : List Char
  deriving DecidableEq

/-- A `SKOSEnrichmentSuggestion` record of the alignment report. -/
structure SKOSEnrichmentSuggestion where
  property_uri : List Char
  property_label : List Char
  suggested_label_type : List Char
  suggested_label_value : List Char
  turtle_snippet : List Char
  justification : List Char
  deriving DecidableEq

/-- A `WeakMatch` record of the alignment report. -/
structure WeakMatch where
  column_name : List Char
  matched_property : List Char
  match_type : MatchType
  confidence_score : ℚ
  confidence_level : ConfidenceLevel
  matched_via : List Char
  sample_values : List (List Char)
  suggestions : List SKOSEnrichmentSuggestion
  deriving DecidableEq

/-- `AlignmentStatistics`. -/
structure AlignmentStatistics where
  total_columns : Nat
  mapped_columns : Nat
  unmapped_columns : Nat
  high_confidence_matches : Nat
  medium_confidence_matches : Nat
  low_confidence_matches : Nat
  very_low_confidence_matches : Nat
  mapping_success_rate : ℚ
  average_confidence : ℚ
  deriving DecidableEq

/-- `AlignmentReport`. -/
structure AlignmentReport where
  ontology_file : List Char
  spreadsheet_file : List Char
  target_class : List Char
  statistics : AlignmentStatistics
  unmapped_columns : List UnmappedColumn
  weak_matches : List WeakMatch
  skos_enrichment_suggestions : List SKOSEnrichmentSuggestion
  deriving DecidableEq

/-- The fixed reason string recorded for unmapped columns. -/
def reasonNoMatch : List Char := "No matching property found in ontology".toList

/-- `MappingGenerator._generate_skos_suggestion` (mapping_generator.py
lines 538–573): hiddenLabel for partial/fuzzy matches, altLabel for
exact-local-name matches, nothing otherwise. -/
def generate_skos_suggestion (namespaces : List (List Char × List Char))
    (col_name : List Char) (p : OntologyProperty) (mt : MatchType) :
    Option SKOSEnrichmentSuggestion :=
  let pick : Option (List Char × List Char) :=
    if mt = MatchType.partialMatch ∨ mt = MatchType.fuzzyMatch then
      some ("skos:hiddenLabel".toList,
        "Column name \x27".toList ++ col_name ++
        "\x27 is a variation that could benefit from a hiddenLabel for better automatic matching".toList)
    else if mt = MatchType.exactLocalName then
      some ("skos:altLabel".toList,
        "Column name \x27".toList ++ col_name ++
        "\x27 matches property name but lacks proper SKOS labels".toList)
    else none
  pick.map (fun lt =>
    let local_name := localNameOf p.uri
    let property_label := p.label.getD (p.pref_label.getD local_name)
    let prop_pfx := formatUri namespaces p.uri
    { property_uri := p.uri
      property_label := property_label
      suggested_label_type := lt.1
      suggested_label_value := col_name
      turtle_snippet := prop_pfx ++ " ".toList ++ lt.1 ++ " \"".toList ++ col_name ++ "\" .".toList
      justification := lt.2 })

/-- The suggestion the report loop emits for one `_mapped_columns`
entry: only matches of confidence < 0.8 are considered at all. -/
def emittedSuggestionFor (namespaces : List (List Char × List Char))
    (e : List Char × (OntologyProperty × MatchType × ℚ)) :
    Option SKOSEnrichmentSuggestion :=
  if e.2.2.2 < 0.8 then generate_skos_suggestion namespaces e.1 e.2.1 e.2.2.1 else none

/-- The `WeakMatch` record the report loop emits for one
`_mapped_columns` entry of confidence < 0.8. -/
def weakMatchFor (namespaces : List (List Char × List Char)) (sp : SpreadsheetIndex)
    (e : List Char × (OntologyProperty × MatchType × ℚ)) : Option WeakMatch :=
  if e.2.2.2 < 0.8 then
    let ca := sp.get_analysis e.1
    some
      { column_name := e.1
        matched_property := e.2.1.uri
        match_type := e.2.2.1
        confidence_score := e.2.2.2
        confidence_level := get_confidence_level e.2.2.2
        matched_via := (e.2.1.label).getD (lastSeg '#' e.2.1.uri)
        sample_values := ca.sample_values.take 5
        suggestions := (generate_skos_suggestion namespaces e.1 e.2.1 e.2.2.1).toList }
  else none

/-- `MappingGenerator._build_alignment_report` (mapping_generator.py
lines 455–536), as a function of the tracking state. -/
def buildAlignmentReport (ontology_file spreadsheet_file : List Char)
    (namespaces : List (List Char × List Char)) (sp : SpreadsheetIndex)
    (target : OntologyClass) (st : GenState) : AlignmentReport :=
  let unmapped_details := st.unmapped.map (fun col =>
    let ca := sp.get_analysis col
    UnmappedColumn.mk col (ca.sample_values.take 5) ca.suggested_datatype reasonNoMatch)
  let weak_matches := st.mapped.filterMap (weakMatchFor namespaces sp)
  let skos_suggestions := st.mapped.filterMap (emittedSuggestionFor namespaces)
  let confidence_scores := st.mapped.map (fun e => e.2.2.2)
  let total_columns := sp.column_names.length
  let mapped_columns := st.mapped.length
  let unmapped_count := st.unmapped.length
  let high_conf := confidence_scores.countP (fun c => decide (0.8 ≤ c))
  let medium_conf := confidence_scores.countP (fun c => decide (0.5 ≤ c ∧ c < 0.8))
  let low_conf := confidence_scores.countP (fun c => decide (0.3 ≤ c ∧ c < 0.5))
  let very_low_conf := confidence_scores.countP (fun c => decide (c < 0.3))
  let avg := if confidence_scores = [] then 0 else confidence_scores.sum / confidence_scores.length
  let rate := if 0 < total_columns then (mapped_columns : ℚ) / total_columns else 0
  { ontology_file := ontology_file
    spreadsheet_file := spreadsheet_file
    target_class := target.label.getD target.uri
    statistics :=
      { total_columns := total_columns
        mapped_columns := mapped_columns
        unmapped_columns := unmapped_count
        high_confidence_matches := high_conf
        medium_confidence_matches := medium_conf
        low_confidence_matches := low_conf
        very_low_confidence_matches := very_low_conf
        mapping_success_rate := rate
        average_confidence := avg }
    unmapped_columns := unmapped_details
    weak_matches := weak_matches
    skos_enrichment_suggestions := skos_suggestions }

/-! ### Class resolution and `generate` -/

/-- The values of the ontology's `classes` dict, in insertion order. -/
def classValues (onto : OntologyIndex) : List OntologyClass :=
  onto.classes.map (fun kv => kv.2)

/-- `MappingGenerator._resolve_class` (mapping_generator.py lines
106–118): label lookup first, then URI equality or `#`/`/`-suffix
match over the class values. -/
def resolveClass (onto : OntologyIndex) (identifier : List Char) : Option OntologyClass :=
  match onto.get_class_by_label identifier with
  | some c => some c
  | none =>
      findSomeL (fun c =>
        if c.uri = identifier
            ∨ endsList ('#' :: identifier) c.uri
            ∨ endsList ('/' :: identifier) c.uri
        then some c else none) (classValues onto)

/-- `MappingGenerator._auto_detect_class` (mapping_generator.py lines
120–136): filename-derived suggestion first, then the ontology's first
class, else nothing. -/
def autoDetectClass (onto : OntologyIndex) (sp : SpreadsheetIndex) : Option OntologyClass :=
  match onto.suggest_class_for_name sp.file_stem with
  | c :: _ => some c
  | [] => (classValues onto).head?

/-- The class-resolution step of `generate`: explicit identifier goes
through `_resolve_class`, an absent one through `_auto_detect_class`. -/
def resolveTarget (onto : OntologyIndex) (sp : SpreadsheetIndex) :
    Option (List Char) → Option OntologyClass
  | some t => resolveClass onto t
  | none => autoDetectClass onto sp

/-- `MappingGenerator._generate_namespaces`: the ontology's namespaces
with `xsd` appended when absent. -/
def generateNamespaces (onto : OntologyIndex) : List (List Char × List Char) :=
  if onto.namespaces.any (fun kv => kv.1 = "xsd".toList) then onto.namespaces
  else onto.namespaces ++ [("xsd".toList, "http://www.w3.org/2001/XMLSchema#".toList)]

/-- Opening brace character (written with an escape; it only ever
appears inside generated template strings). -/
def lbrace : Char := '\x7b'

/-- Closing brace character. -/
def rbrace : Char := '\x7d'

/-- The identifier-column selection of `_generate_iri_template`
(mapping_generator.py lines 204–209): the analyzer's suggested columns,
else the first column of the sheet.  `none` models the `IndexError` the
Python raises from `get_column_names()[0]` when the spreadsheet has no
columns and no suggested identifier columns.  The selection does not
depend on the target class, so it is identical for every
`_generate_iri_template` call of one run. -/
def iriTemplateCols (sp : SpreadsheetIndex) : Option (List (List Char)) :=
  match sp.suggest_iri_template_columns with
  | [] =>
      match sp.column_names with
      | [] => none
      | c :: _ => some [c]
  | cs => some cs

/-- The template string `_generate_iri_template` (mapping_generator.py
lines 211–217) builds from the selected identifier columns. -/
def iriTemplateFromCols (cfg : GeneratorConfig) (target : OntologyClass)
    (id_cols : List (List Char)) : List Char :=
  let class_name := target.label.getD cfg.default_class_pfx
  let class_name := substChar ' ' '_' (lowerStr class_name)
  let template_parts := id_cols.map (fun col => class_name ++ ':' :: lbrace :: col ++ [rbrace])
  List.intercalate ['_'] template_parts

/-- `MappingGenerator._generate_iri_template` (mapping_generator.py
lines 202–217): the template for a class, or `none` for the Python
`IndexError` on a column-less spreadsheet. -/
def generateIriTemplate (cfg : GeneratorConfig) (sp : SpreadsheetIndex)
    (target : OntologyClass) : Option (List Char) :=
  (iriTemplateCols sp).map (iriTemplateFromCols cfg target)

/-- One nested "linked object" mapping. -/
structure ObjectMapping where
  predicate : List Char
  class_uri : List Char
  iri_template : List Char
  properties : List (List Char × List Char)
  deriving DecidableEq

/-- `MappingGenerator._find_columns_for_object` (mapping_generator.py
lines 382–397): columns whose cascade match lands among the range
class's datatype properties.  It does not touch the tracking state. -/
def findColumnsForObject (onto : OntologyIndex) (sp : SpreadsheetIndex)
    (range_class : OntologyClass) : List (List Char × OntologyProperty) :=
  let range_props := onto.get_datatype_properties range_class.uri
  sp.column_names.filterMap (fun col =>
    (matchColumnToProperty col range_props).map (fun r => (col, r.1)))

/-- `MappingGenerator._generate_object_mappings` (mapping_generator.py
lines 344–380), building the `objects` dict with insert-or-replace.
`id_cols` is the run's identifier-column selection: the Python code
calls `_generate_iri_template(range_class)`, whose column selection is
class-independent and was already forced (or the run already raised)
when the sheet's own template was built, so the per-range template is
`iriTemplateFromCols` of the same selection. -/
def generateObjectMappings (cfg : GeneratorConfig) (onto : OntologyIndex)
    (sp : SpreadsheetIndex) (target : OntologyClass)
    (id_cols : List (List Char)) : List (List Char × ObjectMapping) :=
  if ¬ cfg.auto_detect_relationships then []
  else
    (onto.get_object_properties target.uri).foldl (fun acc p =>
      match p.range_type with
      | none => acc
      | some rt =>
          match assocGet rt onto.classes with
          | none => acc
          | some range_class =>
              match findColumnsForObject onto sp range_class with
              | [] => acc
              | potential =>
                  let obj_name := p.label.getD (localNameOf p.uri)
                  upsert obj_name
                    { predicate := formatUri onto.namespaces p.uri
                      class_uri := formatUri onto.namespaces range_class.uri
                      iri_template := iriTemplateFromCols cfg range_class id_cols
                      properties := potential.map (fun cp =>
                        (cp.1, formatUri onto.namespaces cp.2.uri)) }
                    acc) []

/-- One sheet mapping of the generated configuration.  The `source`
field carries the spreadsheet path as given (the `os.path.relpath`
adjustment against `output_path` is filesystem-dependent and elided). -/
structure SheetMapping where
  name : List Char
  source : List Char
  row_class : List Char
  iri_template : List Char
  columns : List (List Char × ColumnMapping)
  objects : List (List Char × ObjectMapping)
  deriving DecidableEq

/-- The generated mapping configuration (`namespaces`, `defaults`,
`sheets`, `options`). -/
structure MappingConfig where
  namespaces : List (List Char × List Char)
  base_iri : List Char
  sheets : List SheetMapping
  on_error : List Char
  skip_empty_values : Bool
  deriving DecidableEq

/-- The sheet mapping `_generate_sheet_mapping` assembles once the
identifier columns exist (the non-raising branch). -/
def sheetMappingOf (cfg : GeneratorConfig) (onto : OntologyIndex)
    (sp : SpreadsheetIndex) (target : OntologyClass) (st : GenState)
    (id_cols : List (List Char)) : SheetMapping × GenState :=
  let props := onto.get_datatype_properties target.uri
  let res := generateColumnMappings cfg onto.namespaces props sp sp.column_names st
  let objs := generateObjectMappings cfg onto sp target id_cols
  ({ name := sp.file_stem
     source := sp.file_path
     row_class := formatUri onto.namespaces target.uri
     iri_template := iriTemplateFromCols cfg target id_cols
     columns := res.1
     objects := objs }, res.2)

/-- `MappingGenerator._generate_sheet_mapping` (mapping_generator.py
lines 161–200), threading the tracking state through
`_generate_column_mappings`.  The Python computes the IRI template
(line 179) before the column mappings, so on the `IndexError` path —
`none` here — the tracking state is untouched. -/
def generateSheetMapping (cfg : GeneratorConfig) (onto : OntologyIndex)
    (sp : SpreadsheetIndex) (target : OntologyClass) (st : GenState) :
    Option (SheetMapping × GenState) :=
  match iriTemplateCols sp with
  | none => none
  | some ics => some (sheetMappingOf cfg onto sp target st ics)

/-- The configuration dict `generate` wraps around the sheet mapping. -/
def mappingConfigOf (cfg : GeneratorConfig) (onto : OntologyIndex)
    (res : SheetMapping × GenState) : MappingConfig × GenState :=
  ({ namespaces := generateNamespaces onto
     base_iri := cfg.base_iri
     sheets := [res.1]
     on_error := "report".toList
     skip_empty_values := true }, res.2)

/-- The mapping configuration `generate` assembles once the target
class is resolved; `none` propagates the `IndexError` of the IRI
template. -/
def buildMappingConfig (cfg : GeneratorConfig) (onto : OntologyIndex)
    (sp : SpreadsheetIndex) (target : OntologyClass) (st : GenState) :
    Option (MappingConfig × GenState) :=
  (generateSheetMapping cfg onto sp target st).map (mappingConfigOf cfg onto)

/-- Did the run succeed (no exception raised)? -/
def exceptIsOk : Except ε α → Bool
  | .ok _ => true
  | .error _ => false

/-- The message of the Python `IndexError` raised by
`_generate_iri_template` on a column-less spreadsheet. -/
def indexErrorMsg : List Char := "list index out of range".toList

/-- `MappingGenerator.generate` (mapping_generator.py lines 68–104),
with the instance tracking state threaded explicitly and the Python
exceptions surfaced as `Except.error`: the `ValueError` when no class
resolves, and the `IndexError` from `_generate_iri_template` when the
spreadsheet has no columns and no suggested identifier columns.  Both
leave the tracking state untouched. -/
def generate (cfg : GeneratorConfig) (onto : OntologyIndex) (sp : SpreadsheetIndex)
    (target_class : Option (List Char)) (st : GenState) :
    Except (List Char) MappingConfig × GenState :=
  match target_class with
  | some t =>
      match resolveClass onto t with
      | none => (.error ("Could not find class: ".toList ++ t), st)
      | some cls =>
          match buildMappingConfig cfg onto sp cls st with
          | none => (.error indexErrorMsg, st)
          | some res => (.ok res.1, res.2)
  | none =>
      match autoDetectClass onto sp with
      | none =>
          (.error "Could not auto-detect target class. Please specify target_class.".toList, st)
      | some cls =>
          match buildMappingConfig cfg onto sp cls st with
          | none => (.error indexErrorMsg, st)
          | some res => (.ok res.1, res.2)

/-- `MappingGenerator.generate_with_alignment_report`
(mapping_generator.py lines 575–604): `generate`, then re-resolve the
target and build the report from the (accumulated) tracking state;
`none` stands for Python's `None` report when re-resolution fails. -/
def generateWithAlignmentReport (cfg : GeneratorConfig) (onto : OntologyIndex)
    (sp : SpreadsheetIndex) (ontology_file spreadsheet_file : List Char)
    (target_class : Option (List Char)) (st : GenState) :
    Except (List Char) (MappingConfig × Option AlignmentReport) × GenState :=
  match generate cfg onto sp target_class st with
  | (.error e, st1) => (.error e, st1)
  | (.ok m, st1) =>
      let report := (resolveTarget onto sp target_class).map
        (fun cls => buildAlignmentReport ontology_file spreadsheet_file
          onto.namespaces sp cls st1)
      (.ok (m, report), st1)

/-! ### Semantic similarity matcher (`matchers/semantic_matcher.py`) -/

/-- A pipeline `MatchResult` (matchers/base.py is consumed through its
interface; the fields here are the ones the semantic matcher fills in;
the `matched_via` debug string uses Python float formatting and is
elided). -/
structure MatchResult where
  property : OntologyProperty
  match_type : MatchType
  confidence : ℚ
  matcher_name : List Char
  deriving DecidableEq

/-- The pipeline `MatchContext`: column name → already matched property
URI. -/
structure MatchContext where
  matched_properties : List (List Char × List Char)

/-- The `SemanticSimilarityMatcher` instance state:
`embeddings_matcher` is `none` exactly when the embedding model is
unavailable (initialization failed or embeddings disabled);
`prop_domain` is the per-property domain cache built from the optional
reasoner, and `has_reasoner` whether a reasoner was supplied. -/
structure SemanticSimilarityMatcher where
  enabled : Bool := true
  threshold : ℚ := 0.6
  embeddings_matcher :
    Option (List Char → List OntologyProperty → Option (OntologyProperty × ℚ)) := none
  has_reasoner : Bool := false
  prop_domain : List (List Char × Option (List Char)) := []
  domain_boost : ℚ := 0.1
  cooccurrence_boost : ℚ := 0.05

/-- The abbreviation-expansion table of `_get_lexical_scores`, in
source order. -/
def expansions : List (List Char × List Char) :=
  [("fname".toList, "first name".toList),
   ("lname".toList, "last name".toList),
   ("mname".toList, "middle name".toList),
   ("middle initial".toList, "middle name".toList),
   ("dob".toList, "birth date".toList),
   ("birth city".toList, "birth place".toList),
   ("email address".toList, "email".toList),
   ("phone".toList, "phone number".toList),
   ("postal code".toList, "zip code".toList),
   ("zipcode".toList, "zip code".toList),
   ("city name".toList, "city".toList),
   ("address".toList, "street address".toList)]

/-- The matcher's text normalization:
`s.lower().replace('_', ' ').replace('-', ' ')`. -/
def colNorm (s : List Char) : List Char :=
  substChar '-' ' ' (substChar '_' ' ' (lowerStr s))

/-- The expansion loop of `_get_lexical_scores`: the first table entry
occurring in the column name is replaced (then the loop breaks). -/
def expandAbbrev (colName : List Char) : List Char :=
  match expansions.find? (fun kv => occursIn kv.1 colName) with
  | some kv => replaceSub kv.1 kv.2 colName
  | none => colName

/-- The property text `_get_lexical_scores` compares against: all
labels, the comment, and the URI local name, joined and normalized. -/
def propText (p : OntologyProperty) : List Char :=
  colNorm (List.intercalate [' '] (p.all_labels ++ p.comment.toList ++ [localNameOf p.uri]))

/-- The per-property lexical score of `_get_lexical_scores`
(semantic_matcher.py lines 152–188): 1.0 on exact text equality, 0.8
on substring containment, else the Jaccard word overlap scaled by 0.7. -/
def lexScore (colName expandedCol : List Char) (p : OntologyProperty) : ℚ :=
  let ptext := propText p
  if expandedCol = ptext ∨ colName = ptext then 1
  else if occursIn expandedCol ptext
      || p.all_labels.any (fun l => occursIn (lowerStr l) colName) then 0.8
  else
    let col_words := (wordsOf expandedCol).toFinset
    let prop_words := (wordsOf ptext).toFinset
    if col_words ≠ ∅ ∧ prop_words ≠ ∅ then
      let overlap := (col_words ∩ prop_words).card
      let total := (col_words ∪ prop_words).card
      if 0 < total then ((overlap : ℚ) / (total : ℚ)) * 0.7 else 0
    else 0

/-- `SemanticSimilarityMatcher._get_lexical_scores`: the URI-keyed
score dict, built property by property. -/
def getLexicalScores (column_name : List Char) (props : List OntologyProperty) :
    List (List Char × ℚ) :=
  let colName := colNorm column_name
  let expandedCol := expandAbbrev colName
  props.foldl (fun d p => upsert p.uri (lexScore colName expandedCol p) d) []

/-- `SemanticSimilarityMatcher._get_base_scores`: the embedding
matcher's best hit (when available) first, then lexical scores for
every URI not already present. -/
def getBaseScores (m : SemanticSimilarityMatcher) (column_name : List Char)
    (props : List OntologyProperty) : List (List Char × ℚ) :=
  let scores0 : List (List Char × ℚ) :=
    match m.embeddings_matcher with
    | some em =>
        match em column_name props with
        | some bp => [(bp.1.uri, bp.2)]
        | none => []
    | none => []
  (getLexicalScores column_name props).foldl
    (fun d kv => if (assocGet kv.1 d).isSome then d else upsert kv.1 kv.2 d) scores0

/-- `SemanticSimilarityMatcher._apply_context_boosts`
(semantic_matcher.py lines 192–225). -/
def applyContextBoosts (m : SemanticSimilarityMatcher)
    (base : List (List Char × ℚ)) (props : List OntologyProperty)
    (context : Option MatchContext) : List (List Char × ℚ) :=
  match context with
  | none => base
  | some ctx =>
      if ctx.matched_properties = [] ∨ ¬ m.has_reasoner then base
      else
        let matchedUris := ctx.matched_properties.map (fun kv => kv.2)
        let matchedDomains :=
          matchedUris.filterMap (fun u => (assocGet u m.prop_domain).bind id)
        props.foldl (fun fs p =>
          match (assocGet p.uri m.prop_domain).bind id with
          | none => fs
          | some pd =>
              if pd ∈ matchedDomains then
                let s1 := min 1 ((assocGet p.uri fs).getD 0 + m.domain_boost)
                let fs1 := upsert p.uri s1 fs
                if matchedUris.any
                    (fun u => (assocGet u m.prop_domain).bind id = some pd) then
                  upsert p.uri (min 1 (s1 + m.cooccurrence_boost)) fs1
                else fs1
              else fs) base

/-- The best-match loop of `SemanticSimilarityMatcher.match`: keep the
current best and replace it only on strict improvement at or above the
threshold (`score > best_score and score >= self.threshold`). -/
def bestFold (s : OntologyProperty → ℚ) (th : ℚ) (props : List OntologyProperty)
    (acc : Option OntologyProperty × ℚ) : Option OntologyProperty × ℚ :=
  props.foldl (fun a p => if a.2 < s p ∧ th ≤ s p then (some p, s p) else a) acc

/-- `SemanticSimilarityMatcher.match` (semantic_matcher.py lines
60–105): base scores, context boosts, then the best-scoring property at
or above the threshold (strict improvement over the running best, so
the earliest maximum wins). -/
def semanticMatch (m : SemanticSimilarityMatcher) (column_name : List Char)
    (props : List OntologyProperty) (context : Option MatchContext) :
    Option MatchResult :=
  if ¬ m.enabled ∨ props = [] then none
  else
    let base := getBaseScores m column_name props
    let final := applyContextBoosts m base props context
    let best := bestFold (fun p => (assocGet p.uri final).getD 0) m.threshold props (none, 0)
    match best.1 with
    | some bp =>
        some
          { property := bp
            match_type := MatchType.semanticSimilarity
            confidence := best.2
            matcher_name := "SemanticSimilarityMatcher".toList }
    | none => none

/-! ### Concrete test fixtures (used by witnesses and counterexamples) -/

/-- A minimal generator configuration (defaults: `min_confidence` 0.5). -/
def exCfg : GeneratorConfig := { base_iri := "http://ex.org/".toList }

/-- A property with no labels; its local name `foo` fuzzily matches the
column `fooz`. -/
def exProp : OntologyProperty := { uri := "http://ex.org/p#foo".toList }

/-- A two-column spreadsheet: `fooz` (fuzzy-matches `exProp`) and `zzz`
(matches nothing). -/
def exSp : SpreadsheetIndex :=
  { file_path := "data.csv".toList
    file_stem := "data".toList
    column_names := ["fooz".toList, "zzz".toList]
    get_analysis := fun _ => {}
    suggest_iri_template_columns := [] }

/-- A one-class ontology whose label lookup resolves `Person`. -/
def exClass : OntologyClass :=
  { uri := "http://ex.org/c#Person".toList, label := some "Person".toList }

/-- The ontology index fixture. -/
def exOnto : OntologyIndex :=
  { classes := [("http://ex.org/c#Person".toList, exClass)]
    namespaces := [("ex".toList, "http://ex.org/p#".toList)]
    get_class_by_label := fun s => if s = "Person".toList then some exClass else none
    suggest_class_for_name := fun _ => []
    get_datatype_properties := fun _ => [exProp]
    get_object_properties := fun _ => [] }

/-- A column-less spreadsheet with no suggested identifier columns: on
it the Python `_generate_iri_template` raises `IndexError`. -/
def exSpNoCols : SpreadsheetIndex :=
  { file_path := "empty.csv".toList
    file_stem := "empty".toList
    column_names := []
    get_analysis := fun _ => {}
    suggest_iri_template_columns := [] }

/-- A property carrying the label text `birth date` for the semantic
matcher fixture. -/
def exBirthProp : OntologyProperty :=
  { uri := "http://ex.org/p#birthDate".toList
    label := some "birth date".toList
    all_labels := ["birth date".toList] }

/-- A semantic matcher with the embedding model unavailable. -/
def exMatcher : SemanticSimilarityMatcher := {}

/-! ## Helper lemmas -/

theorem findSomeL_eq_some {f : α → Option β} {l : List α} {b : β}
    (h : findSomeL f l = some b) : ∃ a ∈ l, f a = some b := by
  induction l with
  | nil => simp [findSomeL] at h
  | cons a t ih =>
      rw [findSomeL] at h
      cases hfa : f a with
      | some b2 =>
          rw [hfa] at h
          exact ⟨a, List.mem_cons_self a t, hfa.trans h⟩
      | none =>
          rw [hfa] at h
          obtain ⟨a2, ha2, hfa2⟩ := ih h
          exact ⟨a2, List.mem_cons_of_mem a ha2, hfa2⟩

theorem firstSomeL_cons_some {o : Option α} {t : List (Option α)} {c : α}
    (h : o = some c) : firstSomeL (o :: t) = some c := by
  rw [h, firstSomeL]

theorem firstSomeL_cons_none {o : Option α} {t : List (Option α)}
    (h : o = none) : firstSomeL (o :: t) = firstSomeL t := by
  rw [h, firstSomeL]

/-! ## C1: the cascade winner is the calibrated-confidence maximum -/

theorem stagePref_type {cl : List Char} {props : List OntologyProperty} {c : Cand}
    (h : stagePref cl props = some c) : c.2.1 = MatchType.exactPrefLabel := by
  obtain ⟨p, _, hf⟩ := findSomeL_eq_some h
  cases hpl : p.pref_label with
  | none => rw [hpl] at hf; cases hf
  | some pl =>
      rw [hpl] at hf
      simp only [Option.some_bind] at hf
      split at hf
      · cases hf; rfl
      · cases hf

theorem stageRdfs_type {cl : List Char} {props : List OntologyProperty} {c : Cand}
    (h : stageRdfs cl props = some c) : c.2.1 = MatchType.exactLabel := by
  obtain ⟨p, _, hf⟩ := findSomeL_eq_some h
  cases hpl : p.label with
  | none => rw [hpl] at hf; cases hf
  | some pl =>
      rw [hpl] at hf
      simp only [Option.some_bind] at hf
      split at hf
      · cases hf; rfl
      · cases hf

theorem stageAlt_type {cl : List Char} {props : List OntologyProperty} {c : Cand}
    (h : stageAlt cl props = some c) : c.2.1 = MatchType.exactAltLabel := by
  obtain ⟨p, _, hf⟩ := findSomeL_eq_some h
  obtain ⟨al, _, hg⟩ := findSomeL_eq_some hf
  split at hg
  · cases hg; rfl
  · cases hg

theorem stageHidden_type {cl : List Char} {props : List OntologyProperty} {c : Cand}
    (h : stageHidden cl props = some c) : c.2.1 = MatchType.exactHiddenLabel := by
  obtain ⟨p, _, hf⟩ := findSomeL_eq_some h
  obtain ⟨hl, _, hg⟩ := findSomeL_eq_some hf
  split at hg
  · cases hg; rfl
  · cases hg

theorem stageLocal_type {cl : List Char} {props : List OntologyProperty} {c : Cand}
    (h : stageLocal cl props = some c) : c.2.1 = MatchType.exactLocalName := by
  obtain ⟨p, _, hf⟩ := findSomeL_eq_some h
  dsimp only at hf
  split at hf
  · cases hf; rfl
  · cases hf

theorem stagePartial_type {cl : List Char} {props : List OntologyProperty} {c : Cand}
    (h : stagePartial cl props = some c) : c.2.1 = MatchType.partialMatch := by
  obtain ⟨p, _, hf⟩ := findSomeL_eq_some h
  obtain ⟨l, _, hg⟩ := findSomeL_eq_some hf
  dsimp only at hg
  split at hg
  · cases hg; rfl
  · cases hg

theorem stageFuzzy_type {cl : List Char} {props : List OntologyProperty} {c : Cand}
    (h : stageFuzzy cl props = some c) : c.2.1 = MatchType.fuzzyMatch := by
  obtain ⟨p, _, hf⟩ := findSomeL_eq_some h
  dsimp only at hf
  split at hf
  · cases hf; rfl
  · cases hf

/-- Pipeline-position trust order: a later stage's candidate has
strictly smaller calibrated confidence than an earlier stage's. -/
def StageR (o1 o2 : Option Cand) : Prop :=
  ∀ c d : Cand, o1 = some c → o2 = some d → confOf d < confOf c

theorem confOf_lt_of_types {c d : Cand} {m1 m2 : MatchType}
    (hc : c.2.1 = m1) (hd : d.2.1 = m2)
    (h : calculate_confidence_score m2 < calculate_confidence_score m1) :
    confOf d < confOf c := by
  show calculate_confidence_score d.2.1 < calculate_confidence_score c.2.1
  rw [hc, hd]; exact h

theorem stages_pairwise (col : List Char) (props : List OntologyProperty) :
    List.Pairwise StageR (stages col props) := by
  rw [stages]
  refine List.Pairwise.cons ?_ (List.Pairwise.cons ?_ (List.Pairwise.cons ?_
    (List.Pairwise.cons ?_ (List.Pairwise.cons ?_ (List.Pairwise.cons ?_
      (List.Pairwise.cons ?_ List.Pairwise.nil)))))) <;>
    intro o ho c d h1 h2 <;>
    simp only [List.mem_cons, List.not_mem_nil, or_false] at ho
  · rcases ho with rfl | rfl | rfl | rfl | rfl | rfl
    · exact confOf_lt_of_types (stagePref_type h1) (stageRdfs_type h2)
        (by norm_num [calculate_confidence_score])
    · exact confOf_lt_of_types (stagePref_type h1) (stageAlt_type h2)
        (by norm_num [calculate_confidence_score])
    · exact confOf_lt_of_types (stagePref_type h1) (stageHidden_type h2)
        (by norm_num [calculate_confidence_score])
    · exact confOf_lt_of_types (stagePref_type h1) (stageLocal_type h2)
        (by norm_num [calculate_confidence_score])
    · exact confOf_lt_of_types (stagePref_type h1) (stagePartial_type h2)
        (by norm_num [calculate_confidence_score])
    · exact confOf_lt_of_types (stagePref_type h1) (stageFuzzy_type h2)
        (by norm_num [calculate_confidence_score])
  · rcases ho with rfl | rfl | rfl | rfl | rfl
    · exact confOf_lt_of_types (stageRdfs_type h1) (stageAlt_type h2)
        (by norm_num [calculate_confidence_score])
    · exact confOf_lt_of_types (stageRdfs_type h1) (stageHidden_type h2)
        (by norm_num [calculate_confidence_score])
    · exact confOf_lt_of_types (stageRdfs_type h1) (stageLocal_type h2)
        (by norm_num [calculate_confidence_score])
    · exact confOf_lt_of_types (stageRdfs_type h1) (stagePartial_type h2)
        (by norm_num [calculate_confidence_score])
    · exact confOf_lt_of_types (stageRdfs_type h1) (stageFuzzy_type h2)
        (by norm_num [calculate_confidence_score])
  · rcases ho with rfl | rfl | rfl | rfl
    · exact confOf_lt_of_types (stageAlt_type h1) (stageHidden_type h2)
        (by norm_num [calculate_confidence_score])
    · exact confOf_lt_of_types (stageAlt_type h1) (stageLocal_type h2)
        (by norm_num [calculate_confidence_score])
    · exact confOf_lt_of_types (stageAlt_type h1) (stagePartial_type h2)
        (by norm_num [calculate_confidence_score])
    · exact confOf_lt_of_types (stageAlt_type h1) (stageFuzzy_type h2)
        (by norm_num [calculate_confidence_score])
  · rcases ho with rfl | rfl | rfl
    · exact confOf_lt_of_types (stageHidden_type h1) (stageLocal_type h2)
        (by norm_num [calculate_confidence_score])
    · exact confOf_lt_of_types (stageHidden_type h1) (stagePartial_type h2)
        (by norm_num [calculate_confidence_score])
    · exact confOf_lt_of_types (stageHidden_type h1) (stageFuzzy_type h2)
        (by norm_num [calculate_confidence_score])
  · rcases ho with rfl | rfl
    · exact confOf_lt_of_types (stageLocal_type h1) (stagePartial_type h2)
        (by norm_num [calculate_confidence_score])
    · exact confOf_lt_of_types (stageLocal_type h1) (stageFuzzy_type h2)
        (by norm_num [calculate_confidence_score])
  · rcases ho with rfl
    exact confOf_lt_of_types (stagePartial_type h1) (stageFuzzy_type h2)
      (by norm_num [calculate_confidence_score])

theorem foldl_best_of_lt (c : Cand) (t : List Cand)
    (h : ∀ d ∈ t, confOf d < confOf c) :
    t.foldl (fun acc d => if confOf acc < confOf d then d else acc) c = c := by
  induction t with
  | nil => rfl
  | cons d t ih =>
      rw [List.foldl_cons,
        if_neg (not_lt.mpr (le_of_lt (h d (List.mem_cons_self d t))))]
      exact ih (fun e he => h e (List.mem_cons_of_mem d he))

theorem firstSomeL_eq_selectBest (l : List (Option Cand))
    (hl : List.Pairwise StageR l) : firstSomeL l = selectBest (l.filterMap id) := by
  induction l with
  | nil => rfl
  | cons o t ih =>
      cases o with
      | none =>
          rw [firstSomeL]
          have hfm : (none :: t).filterMap (id : Option Cand → Option Cand)
              = t.filterMap id := by simp
          rw [hfm]
          exact ih (List.Pairwise.of_cons hl)
      | some c =>
          rw [firstSomeL]
          have hfm : (some c :: t).filterMap (id : Option Cand → Option Cand)
              = c :: t.filterMap id := by simp
          rw [hfm, selectBest]
          have hlt : ∀ d ∈ t.filterMap (id : Option Cand → Option Cand),
              confOf d < confOf c := by
            intro d hd
            obtain ⟨o2, ho2, hid⟩ := List.mem_filterMap.mp hd
            exact (List.pairwise_cons.mp hl).1 o2 ho2 c d rfl hid
          rw [foldl_best_of_lt c _ hlt]

theorem selectBest_is_ub {l : List Cand} {r : Cand}
    (h : selectBest l = some r) : ∀ c ∈ l, confOf c ≤ confOf r := by
  have key : ∀ (t : List Cand) (acc : Cand),
      confOf acc ≤ confOf (t.foldl (fun a d => if confOf a < confOf d then d else a) acc)
      ∧ ∀ d ∈ t,
        confOf d ≤ confOf (t.foldl (fun a d => if confOf a < confOf d then d else a) acc) := by
    intro t
    induction t with
    | nil => exact fun acc => ⟨le_refl _, by simp⟩
    | cons d t ih =>
        intro acc
        rw [List.foldl_cons]
        by_cases hlt : confOf acc < confOf d
        · rw [if_pos hlt]
          refine ⟨le_of_lt (lt_of_lt_of_le hlt (ih d).1), ?_⟩
          intro e he
          rcases List.mem_cons.mp he with rfl | he2
          · exact (ih e).1
          · exact (ih d).2 e he2
        · rw [if_neg hlt]
          refine ⟨(ih acc).1, ?_⟩
          intro e he
          rcases List.mem_cons.mp he with rfl | he2
          · exact le_trans (not_lt.mp hlt) (ih acc).1
          · exact (ih acc).2 e he2
  cases l with
  | nil => cases h
  | cons c t =>
      rw [selectBest] at h
      intro e he
      rcases List.mem_cons.mp he with rfl | he2
      · exact (Option.some.inj h) ▸ (key t e).1
      · exact (Option.some.inj h) ▸ (key t c).2 e he2

/-- C1: for every column and candidate property set the cascade
decision equals selection-by-maximal-calibrated-confidence over all
strategies that produced a candidate (ties broken by earliest pipeline
position, which is how `selectBest` folds), and the winner's calibrated
confidence bounds every produced candidate's. -/
theorem match_decision_is_calibrated_max (col : List Char) (props : List OntologyProperty) :
    matchColumnToProperty col props = selectBest (candidateResults col props)
    ∧ ∀ r, matchColumnToProperty col props = some r →
        ∀ c ∈ candidateResults col props, confOf c ≤ confOf r := by
  have h1 : matchColumnToProperty col props = selectBest (candidateResults col props) :=
    firstSomeL_eq_selectBest (stages col props) (stages_pairwise col props)
  refine ⟨h1, fun r hr c hc => ?_⟩
  exact selectBest_is_ub (h1 ▸ hr) c hc

/-- C1 witness: on a property set where both an rdfs-label stage and a
fuzzy stage produce candidates, the decision picks the rdfs-label
candidate, the selection maximum. -/
theorem match_decision_is_calibrated_max_witness :
    matchColumnToProperty "name".toList
        [{ uri := "http://ex.org/p#named".toList, label := some "Name".toList }]
      = selectBest (candidateResults "name".toList
        [{ uri := "http://ex.org/p#named".toList, label := some "Name".toList }])
    ∧ confOf ({ uri := "http://ex.org/p#named".toList, label := some "Name".toList },
        MatchType.fuzzyMatch, "named".toList)
      ≤ confOf (({ uri := "http://ex.org/p#named".toList, label := some "Name".toList },
        MatchType.exactLabel, "Name".toList) : Cand) := by
  constructor
  · exact (match_decision_is_calibrated_max _ _).1
  · exact (match_decision_is_calibrated_max "name".toList
      [{ uri := "http://ex.org/p#named".toList, label := some "Name".toList }]).2
      _ (by decide) _ (by decide)

/-! ## C5: exact prefLabel beats fuzzy, in any iteration order -/

theorem stagePref_of_unique {cl : List Char} {props : List OntologyProperty}
    {p : OntologyProperty} {pl : List Char}
    (hp : p ∈ props) (hpl : p.pref_label = some pl) (hcl : cleanLabel pl = cl)
    (huniq : ∀ q ∈ props, ∀ ql, q.pref_label = some ql → cleanLabel ql = cl → q = p) :
    stagePref cl props = some (p, MatchType.exactPrefLabel, pl) := by
  induction props with
  | nil => cases hp
  | cons q t ih =>
      rw [stagePref, findSomeL]
      cases hq : q.pref_label with
      | none =>
          simp only [hq, Option.bind]
          have hqp : q ≠ p := by
            intro he; rw [he, hpl] at hq; cases hq
          have hpt : p ∈ t := by
            cases List.mem_cons.mp hp with
            | inl h => exact absurd h.symm hqp
            | inr h => exact h
          rw [stagePref] at ih
          exact ih hpt (fun r hr => huniq r (List.mem_cons_of_mem q hr))
      | some ql =>
          simp only [hq, Option.bind]
          by_cases hc : cleanLabel ql = cl
          · have hqp : q = p := huniq q (List.mem_cons_self q t) ql hq hc
            have hql : ql = pl := by
              rw [hqp, hpl] at hq
              exact (Option.some.inj hq).symm
            subst hqp; subst hql
            simp [hc]
          · simp only [if_neg hc]
            have hqp : q ≠ p := by
              intro he
              rw [he, hpl] at hq
              exact hc ((Option.some.inj hq) ▸ hcl)
            have hpt : p ∈ t := by
              cases List.mem_cons.mp hp with
              | inl h => exact absurd h.symm hqp
              | inr h => exact h
            rw [stagePref] at ih
            exact ih hpt (fun r hr => huniq r (List.mem_cons_of_mem q hr))

/-- C5: a column whose normalized name equals the (unique) SKOS
prefLabel of one property resolves to that property with match type
exact-pref-label — never to a property it would only match fuzzily —
for every ordering of the candidate property list. -/
theorem column_matching_prefLabel_wins {col : List Char} {props : List OntologyProperty}
    {p : OntologyProperty} {pl : List Char}
    (hp : p ∈ props) (hpl : p.pref_label = some pl)
    (hcl : cleanLabel pl = cleanLabel col)
    (huniq : ∀ q ∈ props, ∀ ql, q.pref_label = some ql →
      cleanLabel ql = cleanLabel col → q = p) :
    matchColumnToProperty col props = some (p, MatchType.exactPrefLabel, pl) := by
  have h1 : stagePref (cleanLabel col) props = some (p, MatchType.exactPrefLabel, pl) :=
    stagePref_of_unique hp hpl hcl huniq
  rw [matchColumnToProperty, stages]
  exact firstSomeL_cons_some h1

/-- C5 witness: the property with the matching prefLabel wins even when
a property that fuzzily matches the column comes first in the list. -/
theorem column_matching_prefLabel_wins_witness :
    matchColumnToProperty "first_name".toList
      [{ uri := "http://ex.org/p#firstnamex".toList },
       { uri := "http://ex.org/p#fn".toList, pref_label := some "First Name".toList }]
      = some ({ uri := "http://ex.org/p#fn".toList,
                pref_label := some "First Name".toList },
              MatchType.exactPrefLabel, "First Name".toList) := by
  exact @column_matching_prefLabel_wins "first_name".toList
    [{ uri := "http://ex.org/p#firstnamex".toList },
     { uri := "http://ex.org/p#fn".toList, pref_label := some "First Name".toList }]
    { uri := "http://ex.org/p#fn".toList, pref_label := some "First Name".toList }
    "First Name".toList (by decide) (by decide) (by decide) (by decide)

/-! ## C6: exact-label matching is normalization-insensitive -/

theorem stages_congr {c1 c2 : List Char} (props : List OntologyProperty)
    (h : cleanLabel c1 = cleanLabel c2) : stages c1 props = stages c2 props := by
  rw [stages, stages, h]

/-- C6: the whole cascade factors through the normalization
`cleanLabel` (lowercase, strip underscores and spaces), so two column
names with the same normal form — such as `"first_name"` and
`"First Name"`, which both normalize to `"firstname"` — match exactly
the same property; also the two concrete names have equal normal
forms. -/
theorem exact_matching_normalization_insensitive :
    (∀ (c1 c2 : List Char) (props : List OntologyProperty),
        cleanLabel c1 = cleanLabel c2 →
        matchColumnToProperty c1 props = matchColumnToProperty c2 props)
    ∧ cleanLabel "first_name".toList = cleanLabel "First Name".toList
    ∧ cleanLabel "first_name".toList = "firstname".toList := by
  refine ⟨fun c1 c2 props h => ?_, by decide, by decide⟩
  rw [matchColumnToProperty, matchColumnToProperty, stages_congr props h]

/-- C6 witness: at the concrete pair of column names the two cascades
agree (applied to a property carrying the label `"First Name"`). -/
theorem exact_matching_normalization_insensitive_witness :
    matchColumnToProperty "first_name".toList
        [{ uri := "http://ex.org/p#fn".toList, label := some "FIRST NAME".toList }]
      = matchColumnToProperty "First Name".toList
        [{ uri := "http://ex.org/p#fn".toList, label := some "FIRST NAME".toList }] :=
  exact_matching_normalization_insensitive.1 _ _ _ (by decide)

/-! ## Association-list and fold lemmas -/

theorem assocGet_upsert (k' k : List Char) (v : α) (m : List (List Char × α)) :
    assocGet k (upsert k' v m) = if k' = k then some v else assocGet k m := by
  induction m with
  | nil => by_cases h : k' = k <;> simp [upsert, assocGet, h]
  | cons kv t ih =>
      obtain ⟨k2, v2⟩ := kv
      rw [upsert]
      by_cases h2 : k2 = k'
      · subst h2
        by_cases h : k2 = k <;> simp [assocGet, h]
      · rw [if_neg h2, assocGet]
        by_cases h3 : k2 = k
        · have hk : ¬ k' = k := fun he => h2 (h3.trans he.symm)
          rw [if_pos h3, if_neg hk, assocGet, if_pos h3]
        · rw [if_neg h3, ih, assocGet, if_neg h3]

theorem assocGet_upsert_isSome {k : List Char} {m : List (List Char × α)}
    (k' : List Char) (v : α) (h : (assocGet k m).isSome) :
    (assocGet k (upsert k' v m)).isSome := by
  rw [assocGet_upsert]
  split
  · rfl
  · exact h

theorem upsert_length_present {k : List Char} {m : List (List Char × α)}
    (v : α) (h : (assocGet k m).isSome) : (upsert k v m).length = m.length := by
  induction m with
  | nil => simp [assocGet] at h
  | cons kv t ih =>
      obtain ⟨k2, v2⟩ := kv
      rw [upsert]
      by_cases h2 : k2 = k
      · rw [if_pos h2]; rfl
      · rw [if_neg h2, List.length_cons, List.length_cons, ih]
        rw [assocGet, if_neg h2] at h
        exact h

theorem upsert_length_absent {k : List Char} {m : List (List Char × α)}
    (v : α) (h : assocGet k m = none) : (upsert k v m).length = m.length + 1 := by
  induction m with
  | nil => rfl
  | cons kv t ih =>
      obtain ⟨k2, v2⟩ := kv
      rw [assocGet] at h
      by_cases h2 : k2 = k
      · rw [if_pos h2] at h; cases h
      · rw [if_neg h2] at h
        rw [upsert, if_neg h2, List.length_cons, List.length_cons, ih h]

theorem mappedFold_cons (props : List OntologyProperty) (col : List Char)
    (rest : List (List Char)) (m0 : List (List Char × (OntologyProperty × MatchType × ℚ))) :
    mappedFold props (col :: rest) m0
      = mappedFold props rest
          (match matchColumnToProperty col props with
           | some r => upsert col (r.1, r.2.1, calculate_confidence_score r.2.1) m0
           | none => m0) := by
  simp only [mappedFold, List.foldl_cons]

theorem mappedFold_presence_mono (props : List OntologyProperty)
    (cols : List (List Char)) {m0 : List (List Char × (OntologyProperty × MatchType × ℚ))}
    {c : List Char} (h : (assocGet c m0).isSome) :
    (assocGet c (mappedFold props cols m0)).isSome := by
  induction cols generalizing m0 with
  | nil => exact h
  | cons col rest ih =>
      rw [mappedFold_cons]
      cases hm : matchColumnToProperty col props with
      | some r =>
          simp only [hm]
          exact ih (assocGet_upsert_isSome _ _ h)
      | none =>
          simp only [hm]
          exact ih h

theorem mappedFold_presence (props : List OntologyProperty)
    {cols : List (List Char)} {m0 : List (List Char × (OntologyProperty × MatchType × ℚ))}
    {c : List Char} (hc : c ∈ cols) (hm : (matchColumnToProperty c props).isSome) :
    (assocGet c (mappedFold props cols m0)).isSome := by
  induction cols generalizing m0 with
  | nil => cases hc
  | cons col rest ih =>
      rw [mappedFold_cons]
      rcases List.mem_cons.mp hc with rfl | hc2
      · obtain ⟨r, hr⟩ := Option.isSome_iff_exists.mp hm
        simp only [hr]
        exact mappedFold_presence_mono props rest
          (by rw [assocGet_upsert, if_pos rfl]; rfl)
      · cases hmc : matchColumnToProperty col props with
        | some r => simp only [hmc]; exact ih hc2
        | none => simp only [hmc]; exact ih hc2

theorem mappedFold_length_stable (props : List OntologyProperty)
    (cols : List (List Char)) {m0 : List (List Char × (OntologyProperty × MatchType × ℚ))}
    (h : ∀ c ∈ cols, (matchColumnToProperty c props).isSome → (assocGet c m0).isSome) :
    (mappedFold props cols m0).length = m0.length := by
  induction cols generalizing m0 with
  | nil => rfl
  | cons col rest ih =>
      rw [mappedFold_cons]
      cases hm : matchColumnToProperty col props with
      | some r =>
          simp only [hm]
          rw [ih (fun c hc hmc =>
              assocGet_upsert_isSome _ _ (h c (List.mem_cons_of_mem col hc) hmc)),
            upsert_length_present _ (h col (List.mem_cons_self col rest) (by rw [hm]; rfl))]
      | none =>
          simp only [hm]
          exact ih (fun c hc => h c (List.mem_cons_of_mem col hc))

theorem mappedFold_length_new (props : List OntologyProperty)
    {cols : List (List Char)} {m0 : List (List Char × (OntologyProperty × MatchType × ℚ))}
    (hnd : cols.Nodup) (habs : ∀ c ∈ cols, assocGet c m0 = none) :
    (mappedFold props cols m0).length
      = m0.length + cols.countP (fun c => (matchColumnToProperty c props).isSome) := by
  induction cols generalizing m0 with
  | nil => rfl
  | cons col rest ih =>
      rw [mappedFold_cons, List.countP_cons]
      cases hm : matchColumnToProperty col props with
      | some r =>
          simp only [hm]
          have habs2 : ∀ c ∈ rest, assocGet c
              (upsert col (r.1, r.2.1, calculate_confidence_score r.2.1) m0) = none := by
            intro c hc
            have hne : ¬ col = c := by
              intro he
              exact (List.nodup_cons.mp hnd).1 (he ▸ hc)
            rw [assocGet_upsert, if_neg hne]
            exact habs c (List.mem_cons_of_mem col hc)
          rw [ih (List.nodup_cons.mp hnd).2 habs2,
            upsert_length_absent _ (habs col (List.mem_cons_self col rest))]
          simp [hm]
          omega
      | none =>
          simp only [hm]
          rw [ih (List.nodup_cons.mp hnd).2
            (fun c hc => habs c (List.mem_cons_of_mem col hc))]
          simp [hm]

theorem genCM_unmapped (cfg : GeneratorConfig) (ns : List (List Char × List Char))
    (props : List OntologyProperty) (sp : SpreadsheetIndex)
    (cols : List (List Char)) (st : GenState) :
    (generateColumnMappings cfg ns props sp cols st).2.unmapped
      = st.unmapped ++ cols.filter (fun c => (matchColumnToProperty c props).isNone) := by
  induction cols generalizing st with
  | nil => simp [generateColumnMappings]
  | cons col rest ih =>
      rw [generateColumnMappings]
      cases hm : matchColumnToProperty col props with
      | some r =>
          obtain ⟨p, mt, via⟩ := r
          simp only [hm, ih]
          rw [List.filter_cons]
          simp [hm]
      | none =>
          simp only [hm, ih]
          rw [List.filter_cons]
          simp [hm]

theorem genCM_mapped (cfg : GeneratorConfig) (ns : List (List Char × List Char))
    (props : List OntologyProperty) (sp : SpreadsheetIndex)
    (cols : List (List Char)) (st : GenState) :
    (generateColumnMappings cfg ns props sp cols st).2.mapped
      = mappedFold props cols st.mapped := by
  induction cols generalizing st with
  | nil => rfl
  | cons col rest ih =>
      rw [generateColumnMappings, mappedFold, List.foldl_cons]
      cases hm : matchColumnToProperty col props with
      | some r =>
          obtain ⟨p, mt, via⟩ := r
          simp only [hm, ih]
          rfl
      | none =>
          simp only [hm, ih]
          rfl

/-! ## C2: the min-confidence threshold is never consulted -/

theorem genCM_min_conf_invariant (cfg : GeneratorConfig) (q : ℚ)
    (ns : List (List Char × List Char)) (props : List OntologyProperty)
    (sp : SpreadsheetIndex) (cols : List (List Char)) (st : GenState) :
    generateColumnMappings { cfg with min_confidence := q } ns props sp cols st
      = generateColumnMappings cfg ns props sp cols st := by
  induction cols generalizing st with
  | nil => rfl
  | cons col rest ih =>
      rw [generateColumnMappings, generateColumnMappings]
      cases hm : matchColumnToProperty col props with
      | some r =>
          obtain ⟨p, mt, via⟩ := r
          simp only [hm, ih]
          rfl
      | none =>
          simp only [hm, ih]

/-- C2 counterexample: the column `fooz` fuzzy-matches `exProp` with
confidence 0.4, strictly below `min_confidence` = 0.5, yet it is
accepted into the generated mapping and not recorded as unmapped — so
acceptance is not gated by the configured threshold. -/
theorem min_confidence_threshold_counterexample :
    assocGet "fooz".toList
        (generateColumnMappings exCfg [] [exProp] exSp ["fooz".toList] initState).2.mapped
      = some (exProp, MatchType.fuzzyMatch, calculate_confidence_score MatchType.fuzzyMatch)
    ∧ calculate_confidence_score MatchType.fuzzyMatch = 0.4
    ∧ calculate_confidence_score MatchType.fuzzyMatch < exCfg.min_confidence
    ∧ (generateColumnMappings exCfg [] [exProp] exSp ["fooz".toList] initState).2.unmapped = []
    ∧ (assocGet "fooz".toList
        (generateColumnMappings exCfg [] [exProp] exSp ["fooz".toList] initState).1).isSome := by
  refine ⟨rfl, rfl, ?_, by decide, by decide⟩
  show (0.4 : ℚ) < (0.5 : ℚ)
  norm_num

/-- C2 (amended): `_generate_column_mappings` never consults
`GeneratorConfig.min_confidence` — its output is invariant under
changing the threshold — and it accepts every cascade match regardless
of confidence: a column is unmapped exactly when the cascade returns
nothing, and every matched column is recorded in `_mapped_columns`. -/
theorem column_acceptance_ignores_min_confidence (cfg : GeneratorConfig) (q : ℚ)
    (ns : List (List Char × List Char)) (props : List OntologyProperty)
    (sp : SpreadsheetIndex) (cols : List (List Char)) (st : GenState) :
    (generateColumnMappings { cfg with min_confidence := q } ns props sp cols st
      = generateColumnMappings cfg ns props sp cols st)
    ∧ ((generateColumnMappings cfg ns props sp cols st).2.unmapped
      = st.unmapped ++ cols.filter (fun c => (matchColumnToProperty c props).isNone))
    ∧ (∀ col ∈ cols, (matchColumnToProperty col props).isSome →
        (assocGet col (generateColumnMappings cfg ns props sp cols st).2.mapped).isSome) := by
  refine ⟨genCM_min_conf_invariant cfg q ns props sp cols st,
    genCM_unmapped cfg ns props sp cols st, ?_⟩
  intro col hc hm
  rw [genCM_mapped]
  exact mappedFold_presence props hc hm

/-- C2 witness: the invariance and acceptance facts at the concrete
fixture, with the below-threshold fuzzy column accepted. -/
theorem column_acceptance_ignores_min_confidence_witness :
    (generateColumnMappings { exCfg with min_confidence := 0.99 } [] [exProp] exSp
        ["fooz".toList] initState
      = generateColumnMappings exCfg [] [exProp] exSp ["fooz".toList] initState)
    ∧ (assocGet "fooz".toList
        (generateColumnMappings exCfg [] [exProp] exSp
          ["fooz".toList] initState).2.mapped).isSome := by
  refine ⟨(column_acceptance_ignores_min_confidence exCfg 0.99 [] [exProp] exSp
      ["fooz".toList] initState).1, ?_⟩
  exact (column_acceptance_ignores_min_confidence exCfg 0.99 [] [exProp] exSp
      ["fooz".toList] initState).2.2 "fooz".toList (by decide) (by decide)

/-! ## C10: the tracking state is never reset between runs -/

theorem countP_add_countP_not (p : α → Bool) (l : List α) :
    l.countP p + l.countP (fun a => !(p a)) = l.length := by
  induction l with
  | nil => rfl
  | cons a t ih =>
      rw [List.countP_cons, List.countP_cons, List.length_cons]
      cases hp : p a <;> simp [hp] <;> omega

theorem buildMappingConfig_some {sp : SpreadsheetIndex} {ics : List (List Char)}
    (cfg : GeneratorConfig) (onto : OntologyIndex) (cls : OntologyClass) (st : GenState)
    (hics : iriTemplateCols sp = some ics) :
    buildMappingConfig cfg onto sp cls st
      = some (mappingConfigOf cfg onto (sheetMappingOf cfg onto sp cls st ics)) := by
  simp [buildMappingConfig, generateSheetMapping, hics]

theorem buildMappingConfig_none {sp : SpreadsheetIndex}
    (cfg : GeneratorConfig) (onto : OntologyIndex) (cls : OntologyClass) (st : GenState)
    (hics : iriTemplateCols sp = none) :
    buildMappingConfig cfg onto sp cls st = none := by
  simp [buildMappingConfig, generateSheetMapping, hics]

theorem generate_ok {onto : OntologyIndex} {sp : SpreadsheetIndex}
    {t : Option (List Char)} {cls : OntologyClass} {ics : List (List Char)}
    (cfg : GeneratorConfig) (st : GenState)
    (hres : resolveTarget onto sp t = some cls)
    (hics : iriTemplateCols sp = some ics) :
    generate cfg onto sp t st
      = (Except.ok (mappingConfigOf cfg onto (sheetMappingOf cfg onto sp cls st ics)).1,
         (sheetMappingOf cfg onto sp cls st ics).2) := by
  cases t with
  | some s =>
      have h : resolveClass onto s = some cls := hres
      simp only [generate, h, buildMappingConfig_some cfg onto cls st hics]
      rfl
  | none =>
      have h : autoDetectClass onto sp = some cls := hres
      simp only [generate, h, buildMappingConfig_some cfg onto cls st hics]
      rfl

theorem generate_index_error {onto : OntologyIndex} {sp : SpreadsheetIndex}
    {t : Option (List Char)} {cls : OntologyClass}
    (cfg : GeneratorConfig) (st : GenState)
    (hres : resolveTarget onto sp t = some cls)
    (hics : iriTemplateCols sp = none) :
    generate cfg onto sp t st = (Except.error indexErrorMsg, st) := by
  cases t with
  | some s =>
      have h : resolveClass onto s = some cls := hres
      simp only [generate, h, buildMappingConfig_none cfg onto cls st hics]
  | none =>
      have h : autoDetectClass onto sp = some cls := hres
      simp only [generate, h, buildMappingConfig_none cfg onto cls st hics]

theorem generate_state {onto : OntologyIndex} {sp : SpreadsheetIndex}
    {t : Option (List Char)} {cls : OntologyClass} {ics : List (List Char)}
    (cfg : GeneratorConfig) (st : GenState)
    (hres : resolveTarget onto sp t = some cls)
    (hics : iriTemplateCols sp = some ics) :
    (generate cfg onto sp t st).2
      = (generateColumnMappings cfg onto.namespaces
          (onto.get_datatype_properties cls.uri) sp sp.column_names st).2 := by
  rw [generate_ok cfg st hres hics]
  rfl

/-- C10: the per-instance tracking state survives across generation
runs: on a spreadsheet whose identifier columns exist (so `generate`
does not raise), a second `generate` on the same instance appends every
unmapped column again (doubling the reported `unmapped_columns`), while
the mapped dict keeps its size, so after the second run
`mapped_columns + unmapped_columns` no longer equals `total_columns`;
the alignment report built by a second `generate_with_alignment_report`
is exactly the report over the doubled state. -/
theorem tracking_state_accumulates_across_runs
    (cfg : GeneratorConfig) (onto : OntologyIndex) (sp : SpreadsheetIndex)
    (of sf : List Char) (t : Option (List Char)) (cls : OntologyClass)
    (st1 st2 : GenState)
    (hres : resolveTarget onto sp t = some cls)
    (hnd : sp.column_names.Nodup)
    (hiri : (iriTemplateCols sp).isSome)
    (hst1 : st1 = (generate cfg onto sp t initState).2)
    (hst2 : st2 = (generate cfg onto sp t st1).2) :
    st2.unmapped = st1.unmapped ++ st1.unmapped
    ∧ st2.mapped.length = st1.mapped.length
    ∧ (buildAlignmentReport of sf onto.namespaces sp cls st2).statistics.unmapped_columns
        = 2 * (buildAlignmentReport of sf onto.namespaces sp cls st1).statistics.unmapped_columns
    ∧ (st1.unmapped ≠ [] →
        (buildAlignmentReport of sf onto.namespaces sp cls st2).statistics.mapped_columns
          + (buildAlignmentReport of sf onto.namespaces sp cls st2).statistics.unmapped_columns
          ≠ (buildAlignmentReport of sf onto.namespaces sp cls st2).statistics.total_columns)
    ∧ (∃ m, (generateWithAlignmentReport cfg onto sp of sf t st1).1
        = Except.ok (m, some (buildAlignmentReport of sf onto.namespaces sp cls st2))) := by
  obtain ⟨ics, hics⟩ := Option.isSome_iff_exists.mp hiri
  set props := onto.get_datatype_properties cls.uri with hprops
  set cols := sp.column_names with hcols
  have h1u : st1.unmapped = cols.filter (fun c => (matchColumnToProperty c props).isNone) := by
    rw [hst1, generate_state cfg initState hres hics, genCM_unmapped]
    rfl
  have h1m : st1.mapped = mappedFold props cols [] := by
    rw [hst1, generate_state cfg initState hres hics, genCM_mapped]
    rfl
  have h2u : st2.unmapped = st1.unmapped ++ st1.unmapped := by
    rw [hst2, generate_state cfg st1 hres hics, genCM_unmapped]
    rw [← h1u]
  have h2m : st2.mapped.length = st1.mapped.length := by
    rw [hst2, generate_state cfg st1 hres hics, genCM_mapped]
    apply mappedFold_length_stable
    intro c hc hmc
    rw [h1m]
    exact mappedFold_presence props hc hmc
  have hm1len : st1.mapped.length
      = cols.countP (fun c => (matchColumnToProperty c props).isSome) := by
    rw [h1m, @mappedFold_length_new props cols [] hnd (fun c _ => rfl)]
    simp
  have hu1len : st1.unmapped.length
      = cols.countP (fun c => (matchColumnToProperty c props).isNone) := by
    rw [h1u, ← List.countP_eq_length_filter]
  have hsum : cols.countP (fun c => (matchColumnToProperty c props).isSome)
      + cols.countP (fun c => (matchColumnToProperty c props).isNone) = cols.length := by
    have := countP_add_countP_not (fun c => (matchColumnToProperty c props).isSome) cols
    rw [← this]
    congr 1
    apply List.countP_congr
    intro c _
    cases matchColumnToProperty c props <;> rfl
  refine ⟨h2u, h2m, ?_, ?_, ?_⟩
  · show st2.unmapped.length = 2 * st1.unmapped.length
    rw [h2u, List.length_append]
    omega
  · intro hne
    show st2.mapped.length + st2.unmapped.length ≠ cols.length
    have hulen2 : st2.unmapped.length = 2 * st1.unmapped.length := by
      rw [h2u, List.length_append]; omega
    have hnz : st1.unmapped.length ≠ 0 := by
      intro h0
      exact hne (List.eq_nil_of_length_eq_zero h0)
    rw [h2m, hulen2, hm1len, hu1len]
    omega
  · refine ⟨(mappingConfigOf cfg onto (sheetMappingOf cfg onto sp cls st1 ics)).1, ?_⟩
    have hs : (sheetMappingOf cfg onto sp cls st1 ics).2 = st2 := by
      rw [hst2, generate_ok cfg st1 hres hics]
    simp only [generateWithAlignmentReport, generate_ok cfg st1 hres hics, hres, Option.map]
    rw [hs]

/-- C10 witness: on the two-column fixture (one fuzzy-matched column,
one unmatched) the second run doubles the unmapped list and breaks the
mapped + unmapped = total invariant. -/
theorem tracking_state_accumulates_across_runs_witness :
    ((generate exCfg exOnto exSp (some "Person".toList)
        (generate exCfg exOnto exSp (some "Person".toList) initState).2).2.unmapped
      = (generate exCfg exOnto exSp (some "Person".toList) initState).2.unmapped
        ++ (generate exCfg exOnto exSp (some "Person".toList) initState).2.unmapped)
    ∧ ((buildAlignmentReport "hr.ttl".toList "data.csv".toList exOnto.namespaces exSp exClass
            (generate exCfg exOnto exSp (some "Person".toList)
              (generate exCfg exOnto exSp (some "Person".toList)
                initState).2).2).statistics.mapped_columns
        + (buildAlignmentReport "hr.ttl".toList "data.csv".toList exOnto.namespaces exSp exClass
            (generate exCfg exOnto exSp (some "Person".toList)
              (generate exCfg exOnto exSp (some "Person".toList)
                initState).2).2).statistics.unmapped_columns
        ≠ (buildAlignmentReport "hr.ttl".toList "data.csv".toList exOnto.namespaces exSp exClass
            (generate exCfg exOnto exSp (some "Person".toList)
              (generate exCfg exOnto exSp (some "Person".toList)
                initState).2).2).statistics.total_columns) := by
  have h := tracking_state_accumulates_across_runs exCfg exOnto exSp
    "hr.ttl".toList "data.csv".toList (some "Person".toList) exClass
    (generate exCfg exOnto exSp (some "Person".toList) initState).2
    (generate exCfg exOnto exSp (some "Person".toList)
      (generate exCfg exOnto exSp (some "Person".toList) initState).2).2
    (by decide) (by decide) (by decide) rfl rfl
  exact ⟨h.1, h.2.2.2.1 (by decide)⟩

/-! ## C3: class resolution order and resolution errors -/

/-- C3: `generate` succeeds exactly when a target class resolves and
the IRI-template identifier columns exist (the only other exception,
Python's `IndexError` on a column-less spreadsheet, is modelled
explicitly); an explicit identifier is resolved by exact label lookup
first and by URI/URI-suffix scan second, an absent one by
filename-derived suggestion first with fallback to the ontology's
first class; on resolution failure — and on the `IndexError` path —
`generate` surfaces an error and leaves the state untouched, and on
success the returned configuration has a non-empty sheet list (never
an empty mapping). -/
theorem generate_resolves_class_in_order_or_errors
    (cfg : GeneratorConfig) (onto : OntologyIndex) (sp : SpreadsheetIndex) (st : GenState) :
    (∀ target, exceptIsOk (generate cfg onto sp target st).1
        = ((resolveTarget onto sp target).isSome && (iriTemplateCols sp).isSome))
    ∧ (∀ t c, onto.get_class_by_label t = some c → resolveTarget onto sp (some t) = some c)
    ∧ (∀ t, onto.get_class_by_label t = none →
        resolveTarget onto sp (some t) = findSomeL (fun c =>
          if c.uri = t ∨ endsList ('#' :: t) c.uri ∨ endsList ('/' :: t) c.uri
          then some c else none) (classValues onto))
    ∧ (∀ c rest, onto.suggest_class_for_name sp.file_stem = c :: rest →
        resolveTarget onto sp none = some c)
    ∧ (onto.suggest_class_for_name sp.file_stem = [] →
        resolveTarget onto sp none = (classValues onto).head?)
    ∧ (∀ target c ics, resolveTarget onto sp target = some c →
        iriTemplateCols sp = some ics →
        generate cfg onto sp target st
          = (Except.ok (mappingConfigOf cfg onto (sheetMappingOf cfg onto sp c st ics)).1,
             (sheetMappingOf cfg onto sp c st ics).2)
          ∧ (mappingConfigOf cfg onto (sheetMappingOf cfg onto sp c st ics)).1.sheets ≠ [])
    ∧ (∀ target, resolveTarget onto sp target = none →
        ∃ e, generate cfg onto sp target st = (Except.error e, st))
    ∧ (∀ target c, resolveTarget onto sp target = some c → iriTemplateCols sp = none →
        generate cfg onto sp target st = (Except.error indexErrorMsg, st)) := by
  refine ⟨?_, ?_, ?_, ?_, ?_, ?_, ?_, ?_⟩
  · intro target
    cases target with
    | some s =>
        cases h : resolveClass onto s with
        | some c =>
            cases hics : iriTemplateCols sp with
            | some ics =>
                rw [generate_ok cfg st (show resolveTarget onto sp (some s) = some c from h)
                  hics]
                simp [resolveTarget, h, exceptIsOk]
            | none =>
                rw [generate_index_error cfg st
                  (show resolveTarget onto sp (some s) = some c from h) hics]
                simp [resolveTarget, h, hics, exceptIsOk]
        | none => simp [generate, resolveTarget, h, exceptIsOk]
    | none =>
        cases h : autoDetectClass onto sp with
        | some c =>
            cases hics : iriTemplateCols sp with
            | some ics =>
                rw [generate_ok cfg st (show resolveTarget onto sp none = some c from h) hics]
                simp [resolveTarget, h, exceptIsOk]
            | none =>
                rw [generate_index_error cfg st
                  (show resolveTarget onto sp none = some c from h) hics]
                simp [resolveTarget, h, hics, exceptIsOk]
        | none => simp [generate, resolveTarget, h, exceptIsOk]
  · intro t c h
    simp [resolveTarget, resolveClass, h]
  · intro t h
    simp [resolveTarget, resolveClass, h]
  · intro c rest h
    simp [resolveTarget, autoDetectClass, h]
  · intro h
    simp [resolveTarget, autoDetectClass, h]
  · intro target c ics h hics
    refine ⟨generate_ok cfg st h hics, ?_⟩
    simp [mappingConfigOf]
  · intro target h
    cases target with
    | some s =>
        have h2 : resolveClass onto s = none := h
        exact ⟨"Could not find class: ".toList ++ s, by simp [generate, h2]⟩
    | none =>
        have h2 : autoDetectClass onto sp = none := h
        exact ⟨"Could not auto-detect target class. Please specify target_class.".toList,
          by simp [generate, h2]⟩
  · intro target c h hics
    exact generate_index_error cfg st h hics

/-- C3 witness: on the fixture ontology the label `Person` resolves and
`generate` succeeds (the two-column spreadsheet has identifier
columns); on the column-less spreadsheet the same resolved class makes
`generate` surface the index error with the state untouched. -/
theorem generate_resolves_class_in_order_or_errors_witness :
    resolveTarget exOnto exSp (some "Person".toList) = some exClass
    ∧ exceptIsOk (generate exCfg exOnto exSp (some "Person".toList) initState).1 = true
    ∧ generate exCfg exOnto exSpNoCols (some "Person".toList) initState
        = (Except.error indexErrorMsg, initState) := by
  have h := generate_resolves_class_in_order_or_errors exCfg exOnto exSp initState
  have h2 := generate_resolves_class_in_order_or_errors exCfg exOnto exSpNoCols initState
  have hres : resolveTarget exOnto exSp (some "Person".toList) = some exClass :=
    h.2.1 "Person".toList exClass (by decide)
  refine ⟨hres, ?_, ?_⟩
  · rw [h.1 (some "Person".toList), hres]
    decide
  · exact h2.2.2.2.2.2.2.2 (some "Person".toList) exClass
      (h2.2.1 "Person".toList exClass (by decide)) (by decide)

/-! ## C4: SKOS enrichment suggestions -/

/-- C4: the report emits a suggestion for a recorded match exactly when
its confidence is < 0.8 and its match type is partial, fuzzy, or
exact-local-name; partial/fuzzy matches propose `skos:hiddenLabel`,
exact-local-name matches propose `skos:altLabel`, and every other match
type — exact-pref-label in particular — yields none. -/
theorem skos_suggestion_iff (ns : List (List Char × List Char)) :
    (∀ (of sf : List Char) (sp : SpreadsheetIndex) (target : OntologyClass) (st : GenState),
        (buildAlignmentReport of sf ns sp target st).skos_enrichment_suggestions
          = st.mapped.filterMap (emittedSuggestionFor ns))
    ∧ (∀ (col : List Char) (p : OntologyProperty) (mt : MatchType) (conf : ℚ),
        (emittedSuggestionFor ns (col, p, mt, conf)).isSome
          ↔ (conf < 0.8 ∧ (mt = MatchType.partialMatch ∨ mt = MatchType.fuzzyMatch
              ∨ mt = MatchType.exactLocalName)))
    ∧ (∀ (col : List Char) (p : OntologyProperty) (conf : ℚ) (mt : MatchType),
        conf < 0.8 → (mt = MatchType.partialMatch ∨ mt = MatchType.fuzzyMatch) →
        (emittedSuggestionFor ns (col, p, mt, conf)).map (fun s => s.suggested_label_type)
          = some "skos:hiddenLabel".toList)
    ∧ (∀ (col : List Char) (p : OntologyProperty) (conf : ℚ),
        conf < 0.8 →
        (emittedSuggestionFor ns (col, p, MatchType.exactLocalName, conf)).map
          (fun s => s.suggested_label_type) = some "skos:altLabel".toList)
    ∧ (∀ (col : List Char) (p : OntologyProperty) (conf : ℚ),
        emittedSuggestionFor ns (col, p, MatchType.exactPrefLabel, conf) = none) := by
  refine ⟨fun _ _ _ _ _ => rfl, ?_, ?_, ?_, ?_⟩
  · intro col p mt conf
    by_cases hconf : conf < 0.8
    · cases mt <;> simp [emittedSuggestionFor, generate_skos_suggestion, hconf]
    · simp [emittedSuggestionFor, hconf]
  · intro col p conf mt hconf hmt
    rcases hmt with rfl | rfl <;>
      simp [emittedSuggestionFor, generate_skos_suggestion, hconf]
  · intro col p conf hconf
    simp [emittedSuggestionFor, generate_skos_suggestion, hconf]
  · intro col p conf
    by_cases hconf : conf < 0.8 <;>
      simp [emittedSuggestionFor, generate_skos_suggestion, hconf]

/-- C4 witness: a fuzzy match below 0.8 yields a hiddenLabel
suggestion, an exact-local-name match below 0.8 an altLabel one, and an
exact-pref-label match none. -/
theorem skos_suggestion_iff_witness :
    ((emittedSuggestionFor [] ("fooz".toList, exProp, MatchType.fuzzyMatch, 0.4)).map
        (fun s => s.suggested_label_type) = some "skos:hiddenLabel".toList)
    ∧ ((emittedSuggestionFor [] ("foo".toList, exProp, MatchType.exactLocalName, 0.5)).map
        (fun s => s.suggested_label_type) = some "skos:altLabel".toList)
    ∧ emittedSuggestionFor [] ("foo".toList, exProp, MatchType.exactPrefLabel, 0.4) = none := by
  refine ⟨(skos_suggestion_iff []).2.2.1 "fooz".toList exProp 0.4 MatchType.fuzzyMatch
      (by norm_num) (Or.inr rfl),
    (skos_suggestion_iff []).2.2.2.1 "foo".toList exProp 0.5 (by norm_num),
    (skos_suggestion_iff []).2.2.2.2 "foo".toList exProp 0.4⟩

/-! ## C7: confidence buckets partition the accepted matches -/

theorem bucket_truth_values (c : ℚ) :
    (c < 0.3 → (¬ (0.8:ℚ) ≤ c ∧ ¬ ((0.5:ℚ) ≤ c ∧ c < 0.8) ∧ ¬ ((0.3:ℚ) ≤ c ∧ c < 0.5)))
    ∧ ((0.3:ℚ) ≤ c → c < 0.5 → (¬ (0.8:ℚ) ≤ c ∧ ¬ ((0.5:ℚ) ≤ c ∧ c < 0.8) ∧ ¬ c < 0.3))
    ∧ ((0.5:ℚ) ≤ c → c < 0.8 → (¬ (0.8:ℚ) ≤ c ∧ ¬ ((0.3:ℚ) ≤ c ∧ c < 0.5) ∧ ¬ c < 0.3))
    ∧ ((0.8:ℚ) ≤ c → (¬ ((0.5:ℚ) ≤ c ∧ c < 0.8) ∧ ¬ ((0.3:ℚ) ≤ c ∧ c < 0.5) ∧ ¬ c < 0.3)) := by
  refine ⟨fun h => ⟨by linarith, fun h2 => by linarith [h2.1], fun h2 => by linarith [h2.1]⟩,
    fun h1 h2 => ⟨by linarith, fun h3 => by linarith [h3.2], by linarith⟩,
    fun h1 h2 => ⟨by linarith, fun h3 => by linarith [h3.2], by linarith⟩,
    fun h1 => ⟨fun h2 => by linarith [h2.2], fun h2 => by linarith [h2.2], by linarith⟩⟩

theorem countP_buckets_partition (scores : List ℚ) :
    scores.countP (fun c => decide ((0.8:ℚ) ≤ c))
      + scores.countP (fun c => decide ((0.5:ℚ) ≤ c ∧ c < 0.8))
      + scores.countP (fun c => decide ((0.3:ℚ) ≤ c ∧ c < 0.5))
      + scores.countP (fun c => decide (c < 0.3))
      = scores.length := by
  induction scores with
  | nil => rfl
  | cons c t ih =>
      simp only [List.countP_cons, decide_eq_true_eq, List.length_cons]
      rcases lt_or_le c (0.3:ℚ) with h1 | h1
      · obtain ⟨n1, n2, n3⟩ := (bucket_truth_values c).1 h1
        simp only [if_pos h1, if_neg n1, if_neg n2, if_neg n3]
        omega
      · rcases lt_or_le c (0.5:ℚ) with h2 | h2
        · obtain ⟨n1, n2, n3⟩ := (bucket_truth_values c).2.1 h1 h2
          simp only [if_pos (And.intro h1 h2), if_neg n1, if_neg n2, if_neg n3]
          omega
        · rcases lt_or_le c (0.8:ℚ) with h3 | h3
          · obtain ⟨n1, n2, n3⟩ := (bucket_truth_values c).2.2.1 h2 h3
            simp only [if_pos (And.intro h2 h3), if_neg n1, if_neg n2, if_neg n3]
            omega
          · obtain ⟨n1, n2, n3⟩ := (bucket_truth_values c).2.2.2 h3
            simp only [if_pos h3, if_neg n1, if_neg n2, if_neg n3]
            omega

/-- C7: in the alignment statistics the four confidence-bucket counts
sum to `mapped_columns`, and the four bucket conditions are mutually
exclusive and exhaustive: every confidence lands in exactly one
bucket. -/
theorem confidence_buckets_partition (of sf : List Char)
    (ns : List (List Char × List Char)) (sp : SpreadsheetIndex)
    (target : OntologyClass) (st : GenState) :
    ((buildAlignmentReport of sf ns sp target st).statistics.high_confidence_matches
      + (buildAlignmentReport of sf ns sp target st).statistics.medium_confidence_matches
      + (buildAlignmentReport of sf ns sp target st).statistics.low_confidence_matches
      + (buildAlignmentReport of sf ns sp target st).statistics.very_low_confidence_matches
      = (buildAlignmentReport of sf ns sp target st).statistics.mapped_columns)
    ∧ (∀ c : ℚ,
        ((if (0.8:ℚ) ≤ c then 1 else 0) + (if (0.5:ℚ) ≤ c ∧ c < 0.8 then 1 else 0)
          + (if (0.3:ℚ) ≤ c ∧ c < 0.5 then 1 else 0) + (if c < 0.3 then 1 else 0) : Nat)
          = 1) := by
  constructor
  · show (st.mapped.map (fun e => e.2.2.2)).countP (fun c => decide ((0.8:ℚ) ≤ c))
        + (st.mapped.map (fun e => e.2.2.2)).countP (fun c => decide ((0.5:ℚ) ≤ c ∧ c < 0.8))
        + (st.mapped.map (fun e => e.2.2.2)).countP (fun c => decide ((0.3:ℚ) ≤ c ∧ c < 0.5))
        + (st.mapped.map (fun e => e.2.2.2)).countP (fun c => decide (c < 0.3))
        = st.mapped.length
    rw [countP_buckets_partition, List.length_map]
  · intro c
    rcases lt_or_le c (0.3:ℚ) with h1 | h1
    · obtain ⟨n1, n2, n3⟩ := (bucket_truth_values c).1 h1
      simp only [if_pos h1, if_neg n1, if_neg n2, if_neg n3]
    · rcases lt_or_le c (0.5:ℚ) with h2 | h2
      · obtain ⟨n1, n2, n3⟩ := (bucket_truth_values c).2.1 h1 h2
        simp only [if_pos (And.intro h1 h2), if_neg n1, if_neg n2, if_neg n3]
      · rcases lt_or_le c (0.8:ℚ) with h3 | h3
        · obtain ⟨n1, n2, n3⟩ := (bucket_truth_values c).2.2.1 h2 h3
          simp only [if_pos (And.intro h2 h3), if_neg n1, if_neg n2, if_neg n3]
        · obtain ⟨n1, n2, n3⟩ := (bucket_truth_values c).2.2.2 h3
          simp only [if_pos h3, if_neg n1, if_neg n2, if_neg n3]

/-! ## C8: the mapping success rate -/

/-- C8: `mapping_success_rate` equals `mapped_columns / total_columns`
exactly whenever `total_columns > 0`, and equals 0 when
`total_columns = 0` (the division is guarded, never performed on
zero). -/
theorem mapping_success_rate_exact (of sf : List Char)
    (ns : List (List Char × List Char)) (sp : SpreadsheetIndex)
    (target : OntologyClass) (st : GenState) :
    (0 < sp.column_names.length →
        (buildAlignmentReport of sf ns sp target st).statistics.mapping_success_rate
          = (st.mapped.length : ℚ) / (sp.column_names.length : ℚ))
    ∧ (sp.column_names.length = 0 →
        (buildAlignmentReport of sf ns sp target st).statistics.mapping_success_rate = 0)
    ∧ (buildAlignmentReport of sf ns sp target st).statistics.total_columns
        = sp.column_names.length
    ∧ (buildAlignmentReport of sf ns sp target st).statistics.mapped_columns
        = st.mapped.length := by
  have hrate : (buildAlignmentReport of sf ns sp target st).statistics.mapping_success_rate
      = if 0 < sp.column_names.length
        then (st.mapped.length : ℚ) / (sp.column_names.length : ℚ) else 0 := rfl
  refine ⟨fun h => ?_, fun h => ?_, rfl, rfl⟩
  · rw [hrate, if_pos h]
  · rw [hrate, if_neg (by omega)]

/-- C8 witness: on the two-column fixture with an empty tracking state
the rate is the guarded quotient 0 / 2. -/
theorem mapping_success_rate_exact_witness :
    (buildAlignmentReport "hr.ttl".toList "data.csv".toList [] exSp exClass
        initState).statistics.mapping_success_rate
      = ((initState.mapped.length : ℚ) / (exSp.column_names.length : ℚ)) :=
  (mapping_success_rate_exact "hr.ttl".toList "data.csv".toList [] exSp exClass
      initState).1 (by decide)

/-! ## C9: lexical fallback of the semantic matcher -/

theorem bestFold_cons (s : OntologyProperty → ℚ) (th : ℚ) (p : OntologyProperty)
    (t : List OntologyProperty) (acc : Option OntologyProperty × ℚ) :
    bestFold s th (p :: t) acc
      = bestFold s th t (if acc.2 < s p ∧ th ≤ s p then (some p, s p) else acc) := by
  simp only [bestFold, List.foldl_cons]

theorem bestFold_acc_le (s : OntologyProperty → ℚ) (th : ℚ) (props : List OntologyProperty) :
    ∀ acc, acc.2 ≤ (bestFold s th props acc).2 := by
  induction props with
  | nil => intro acc; exact le_refl _
  | cons p t ih =>
      intro acc
      rw [bestFold_cons]
      by_cases h : acc.2 < s p ∧ th ≤ s p
      · rw [if_pos h]
        exact le_trans (le_of_lt h.1) (ih (some p, s p))
      · rw [if_neg h]
        exact ih acc

theorem bestFold_ub (s : OntologyProperty → ℚ) (th : ℚ) (props : List OntologyProperty) :
    ∀ acc, ∀ p ∈ props, s p < th ∨ s p ≤ (bestFold s th props acc).2 := by
  induction props with
  | nil => intro acc p hp; cases hp
  | cons q t ih =>
      intro acc p hp
      rw [bestFold_cons]
      rcases List.mem_cons.mp hp with rfl | hp2
      · by_cases h : acc.2 < s p ∧ th ≤ s p
        · rw [if_pos h]
          exact Or.inr (bestFold_acc_le s th t (some p, s p))
        · rw [if_neg h]
          rcases not_and_or.mp h with h1 | h2
          · exact Or.inr (le_trans (not_lt.mp h1) (bestFold_acc_le s th t acc))
          · exact Or.inl (not_le.mp h2)
      · exact ih _ p hp2

theorem bestFold_inv (s : OntologyProperty → ℚ) (th : ℚ) (props : List OntologyProperty) :
    ∀ acc, bestFold s th props acc = acc
      ∨ (th ≤ (bestFold s th props acc).2
          ∧ ∃ p ∈ props, bestFold s th props acc = (some p, s p)) := by
  induction props with
  | nil => intro acc; exact Or.inl rfl
  | cons q t ih =>
      intro acc
      rw [bestFold_cons]
      by_cases h : acc.2 < s q ∧ th ≤ s q
      · rw [if_pos h]
        rcases ih (some q, s q) with heq | ⟨hth, p, hp, heq⟩
        · refine Or.inr ⟨?_, q, List.mem_cons_self q t, heq⟩
          rw [heq]
          exact h.2
        · exact Or.inr ⟨hth, p, List.mem_cons_of_mem q hp, heq⟩
      · rw [if_neg h]
        rcases ih acc with heq | ⟨hth, p, hp, heq⟩
        · exact Or.inl heq
        · exact Or.inr ⟨hth, p, List.mem_cons_of_mem q hp, heq⟩

theorem bestFold_some_pers (s : OntologyProperty → ℚ) (th : ℚ)
    (props : List OntologyProperty) :
    ∀ acc, acc.1.isSome → ((bestFold s th props acc).1).isSome := by
  induction props with
  | nil => intro acc h; exact h
  | cons q t ih =>
      intro acc h
      rw [bestFold_cons]
      by_cases hc : acc.2 < s q ∧ th ≤ s q
      · rw [if_pos hc]
        exact ih _ rfl
      · rw [if_neg hc]
        exact ih _ h

theorem bestFold_complete (s : OntologyProperty → ℚ) (th : ℚ)
    (props : List OntologyProperty) :
    ∀ acc, (acc.1 = none → acc.2 = 0) → (∃ p ∈ props, th ≤ s p ∧ 0 < s p) →
    ((bestFold s th props acc).1).isSome := by
  induction props with
  | nil =>
      intro acc hz hex
      obtain ⟨p, hp, _⟩ := hex
      cases hp
  | cons q t ih =>
      intro acc hz hex
      obtain ⟨p, hp, hth, hpos⟩ := hex
      rw [bestFold_cons]
      rcases List.mem_cons.mp hp with rfl | hp2
      · by_cases hc : acc.2 < s p ∧ th ≤ s p
        · rw [if_pos hc]
          exact bestFold_some_pers s th t _ rfl
        · rw [if_neg hc]
          rcases not_and_or.mp hc with h1 | h2
          · have hms : acc.1.isSome := by
              cases ha : acc.1 with
              | some v => rfl
              | none =>
                  exfalso
                  rw [hz ha] at h1
                  exact h1 hpos
            exact bestFold_some_pers s th t acc hms
          · exact absurd hth h2
      · by_cases hc : acc.2 < s q ∧ th ≤ s q
        · rw [if_pos hc]
          exact bestFold_some_pers s th t _ rfl
        · rw [if_neg hc]
          exact ih acc hz ⟨p, hp2, hth, hpos⟩

theorem assocGet_foldl_fill (L : List (List Char × ℚ)) :
    ∀ (D : List (List Char × ℚ)) (k : List Char),
    assocGet k (L.foldl (fun d kv =>
        if (assocGet kv.1 d).isSome then d else upsert kv.1 kv.2 d) D)
      = if (assocGet k D).isSome then assocGet k D else assocGet k L := by
  induction L with
  | nil =>
      intro D k
      cases h : assocGet k D <;> simp [h, assocGet]
  | cons kv t ih =>
      intro D k
      rw [List.foldl_cons]
      by_cases hD : (assocGet kv.1 D).isSome
      · rw [if_pos hD, ih D k]
        by_cases hk : kv.1 = k
        · subst hk
          rw [if_pos hD, if_pos hD]
        · by_cases hDk : (assocGet k D).isSome
          · rw [if_pos hDk, if_pos hDk]
          · rw [if_neg hDk, if_neg hDk, assocGet, if_neg hk]
      · rw [if_neg hD, ih _ k]
        have hDn : assocGet kv.1 D = none := Option.not_isSome_iff_eq_none.mp hD
        by_cases hk : kv.1 = k
        · subst hk
          rw [assocGet_upsert, if_pos rfl, hDn]
          simp [assocGet]
        · rw [assocGet_upsert, if_neg hk]
          by_cases hDk : (assocGet k D).isSome
          · rw [if_pos hDk, if_pos hDk]
          · rw [if_neg hDk, if_neg hDk, assocGet, if_neg hk]

theorem assocGet_scoreFold_not_mem (f : OntologyProperty → ℚ)
    (props : List OntologyProperty) :
    ∀ (d : List (List Char × ℚ)) (k : List Char),
    k ∉ props.map (fun p => p.uri) →
    assocGet k (props.foldl (fun d p => upsert p.uri (f p) d) d) = assocGet k d := by
  induction props with
  | nil => intro d k _; rfl
  | cons q t ih =>
      intro d k h
      rw [List.map_cons, List.mem_cons, not_or] at h
      rw [List.foldl_cons, ih _ k h.2, assocGet_upsert,
        if_neg (fun he => h.1 he.symm)]

theorem assocGet_scoreFold_mem (f : OntologyProperty → ℚ)
    (props : List OntologyProperty) :
    ∀ (d : List (List Char × ℚ)), (props.map (fun p => p.uri)).Nodup →
    ∀ p ∈ props, assocGet p.uri (props.foldl (fun d p => upsert p.uri (f p) d) d)
      = some (f p) := by
  induction props with
  | nil => intro d _ p hp; cases hp
  | cons q t ih =>
      intro d hnd p hp
      rw [List.foldl_cons]
      rcases List.mem_cons.mp hp with rfl | hp2
      · have hnm : p.uri ∉ t.map (fun p => p.uri) := by
          rw [List.map_cons] at hnd
          exact (List.nodup_cons.mp hnd).1
        rw [assocGet_scoreFold_not_mem f t _ p.uri hnm, assocGet_upsert, if_pos rfl]
      · rw [List.map_cons] at hnd
        exact ih _ (List.nodup_cons.mp hnd).2 p hp2

theorem getBaseScores_lexical {m : SemanticSimilarityMatcher}
    (col : List Char) {props : List OntologyProperty}
    (hemb : m.embeddings_matcher = none)
    (hnd : (props.map (fun p => p.uri)).Nodup) :
    ∀ p ∈ props, assocGet p.uri (getBaseScores m col props)
      = some (lexScore (colNorm col) (expandAbbrev (colNorm col)) p) := by
  intro p hp
  simp only [getBaseScores, hemb]
  rw [assocGet_foldl_fill]
  simp only [assocGet, Option.isSome_none, Bool.false_eq_true, if_false]
  simp only [getLexicalScores]
  exact assocGet_scoreFold_mem _ props [] hnd p hp

/-- C9: with the embedding model unavailable (and no cross-column
context), the semantic matcher scores every candidate property by the
lexical comparison `lexScore` of the abbreviation-expanded column name
against the property's combined labels+comment+local-name text (1.0 on
exact equality, 0.8 on substring containment, else Jaccard word overlap
× 0.7), and it returns exactly one best match: a property of maximal
lexical score, at or above the threshold, bounding every other
property's score — and some match is returned whenever a property
scores at or above the threshold (and positively). -/
theorem semantic_lexical_fallback (m : SemanticSimilarityMatcher)
    (col : List Char) (props : List OntologyProperty)
    (hemb : m.embeddings_matcher = none) (hen : m.enabled = true)
    (hnd : (props.map (fun p => p.uri)).Nodup) :
    (∀ p ∈ props, assocGet p.uri (getBaseScores m col props)
        = some (lexScore (colNorm col) (expandAbbrev (colNorm col)) p))
    ∧ (∀ r, semanticMatch m col props none = some r →
        r.property ∈ props
        ∧ r.match_type = MatchType.semanticSimilarity
        ∧ r.confidence = lexScore (colNorm col) (expandAbbrev (colNorm col)) r.property
        ∧ m.threshold ≤ r.confidence
        ∧ ∀ p ∈ props, lexScore (colNorm col) (expandAbbrev (colNorm col)) p ≤ r.confidence)
    ∧ ((∃ p ∈ props, m.threshold ≤ lexScore (colNorm col) (expandAbbrev (colNorm col)) p
          ∧ 0 < lexScore (colNorm col) (expandAbbrev (colNorm col)) p) →
        (semanticMatch m col props none).isSome) := by
  have hbase := getBaseScores_lexical col hemb hnd
  have hunfold : props ≠ [] → semanticMatch m col props none
      = (match (bestFold (fun p => (assocGet p.uri (applyContextBoosts m
            (getBaseScores m col props) props none)).getD 0)
          m.threshold props (none, 0)).1 with
        | some bp =>
            some
              { property := bp
                match_type := MatchType.semanticSimilarity
                confidence := (bestFold (fun p => (assocGet p.uri (applyContextBoosts m
                    (getBaseScores m col props) props none)).getD 0)
                  m.threshold props (none, 0)).2
                matcher_name := "SemanticSimilarityMatcher".toList }
        | none => none) := by
    intro hp0
    rw [semanticMatch, if_neg (by simp [hen, hp0])]
  have hsp : ∀ p ∈ props,
      (assocGet p.uri (applyContextBoosts m (getBaseScores m col props) props none)).getD 0
        = lexScore (colNorm col) (expandAbbrev (colNorm col)) p := by
    intro p hp
    show (assocGet p.uri (getBaseScores m col props)).getD 0 = _
    rw [hbase p hp]
    rfl
  refine ⟨hbase, ?_, ?_⟩
  · intro r hr
    by_cases hp0 : props = []
    · subst hp0
      simp [semanticMatch] at hr
    · rw [hunfold hp0] at hr
      set s : OntologyProperty → ℚ := fun p => (assocGet p.uri (applyContextBoosts m
        (getBaseScores m col props) props none)).getD 0 with hs
      rcases bestFold_inv s m.threshold props (none, 0) with heq | ⟨hth, p, hp, heq⟩
      · rw [heq] at hr
        cases hr
      · rw [heq] at hr hth
        cases hr
        refine ⟨hp, rfl, ?_, ?_, ?_⟩
        · exact hsp p hp
        · exact hth
        · intro q hq
          rw [← hsp q hq]
          rcases bestFold_ub s m.threshold props (none, 0) q hq with hlt | hle
          · exact le_trans (le_of_lt hlt) hth
          · rw [heq] at hle
            exact hle
  · intro hex
    obtain ⟨p, hp, hth, hpos⟩ := hex
    have hp0 : props ≠ [] := by
      intro h
      rw [h] at hp
      cases hp
    rw [hunfold hp0]
    set s : OntologyProperty → ℚ := fun p => (assocGet p.uri (applyContextBoosts m
      (getBaseScores m col props) props none)).getD 0 with hs
    have hsome : ((bestFold s m.threshold props (none, 0)).1).isSome :=
      bestFold_complete s m.threshold props (none, 0) (fun _ => rfl)
        ⟨p, hp, hth.trans_eq (hsp p hp).symm, hpos.trans_eq (hsp p hp).symm⟩
    obtain ⟨bp, hbp⟩ := Option.isSome_iff_exists.mp hsome
    rw [hbp]
    rfl

/-- C9 witness: for the column `DOB` against a property labelled
`birth date`, abbreviation expansion (`dob` → `birth date`) makes the
lexical fallback return that property with confidence 0.8 ≥ 0.6. -/
theorem semantic_lexical_fallback_witness :
    (semanticMatch exMatcher "DOB".toList [exBirthProp] none).isSome = true
    ∧ lexScore (colNorm "DOB".toList) (expandAbbrev (colNorm "DOB".toList)) exBirthProp
        = 0.8 := by
  constructor
  · apply (semantic_lexical_fallback exMatcher "DOB".toList [exBirthProp]
      rfl rfl (by decide)).2.2
    refine ⟨exBirthProp, List.mem_cons_self _ _, ?_, ?_⟩
    · show (0.6 : ℚ) ≤ lexScore (colNorm "DOB".toList)
        (expandAbbrev (colNorm "DOB".toList)) exBirthProp
      have h8 : lexScore (colNorm "DOB".toList)
          (expandAbbrev (colNorm "DOB".toList)) exBirthProp = 0.8 := by
        rw [lexScore, if_neg (by decide), if_pos (by decide)]
      rw [h8]
      norm_num
    · have h8 : lexScore (colNorm "DOB".toList)
          (expandAbbrev (colNorm "DOB".toList)) exBirthProp = 0.8 := by
        rw [lexScore, if_neg (by decide), if_pos (by decide)]
      rw [h8]
      norm_num
  · rw [lexScore, if_neg (by decide), if_pos (by decide)]

end RDFMap
